import Mathlib

/-!
# Verification of the Kanmi Levers Guard scan engine

A shallow embedding of the static-analysis engine in `src/extension.ts`:
the set of SEO / performance / render-budget detectors that map a document
(text plus file name) and a resolved policy to an ordered list of
diagnostics.  JavaScript strings are modelled as `List Char`; the
hand-written scanners below mirror the source's regular expressions
(leftmost match, greedy / lazy quantifier resolution is noted where it
matters).  Byte sizes are exact (`Char.utf8Size` sums), so the source's
floating-point divisions by powers of two (which are exact) are modelled
by integer comparisons against scaled thresholds.
-/

namespace Kanmi

/-- JavaScript string, modelled as a list of characters. -/
abbrev Str := List Char

/-- ASCII letter, the `[a-zA-Z]` character class. -/
def isAsciiLetter (c : Char) : Bool :=
  (('a' ≤ c && c ≤ 'z') || ('A' ≤ c && c ≤ 'Z'))

/-- The `[a-zA-Z0-9]` character class used for tag names. -/
def isTagChar (c : Char) : Bool :=
  isAsciiLetter c || ('0' ≤ c && c ≤ '9')

/-- The JavaScript `\s` class (ASCII part: space, tab, LF, VT, FF, CR). -/
def isWS (c : Char) : Bool :=
  c == ' ' || c == '\t' || c == '\n' || c == '\x0b' || c == '\x0c' || c == '\r'

/-- The JavaScript `\w` class, used for `\b` word boundaries. -/
def isWordChar (c : Char) : Bool :=
  isTagChar c || c == '_'

/-- A quote character, the `["']` class. -/
def isQuote (c : Char) : Bool :=
  c == '"' || c == '\''

/-- Case-insensitive character equality (the regex `i` flag). -/
def ciEq (a b : Char) : Bool := a.toLower == b.toLower

/-- Case-sensitive prefix test. -/
def litAt (pat s : Str) : Option Str :=
  match pat, s with
  | [], s => some s
  | _ :: _, [] => none
  | p :: ps, c :: cs => if p == c then litAt ps cs else none

/-- Case-insensitive prefix test (regex `i` flag literals). -/
def litAtCI (pat s : Str) : Option Str :=
  match pat, s with
  | [], s => some s
  | _ :: _, [] => none
  | p :: ps, c :: cs => if ciEq p c then litAtCI ps cs else none

/-- One or more whitespace characters, `\s+`, consumed greedily.  Greedy
resolution without backtracking is exact here whenever the continuation
cannot start with whitespace. -/
def ws1 (s : Str) : Option Str :=
  match s with
  | c :: cs => if isWS c then some (cs.dropWhile isWS) else none
  | [] => none

/-- Zero or more whitespace characters, `\s*`, consumed greedily. -/
def ws0 (s : Str) : Str := s.dropWhile isWS

/-- A single quote character, the `["']` class. -/
def quoteAt (s : Str) : Option Str :=
  match s with
  | c :: cs => if isQuote c then some cs else none
  | [] => none

/-- `[^"']+` followed by a closing `["']`: a maximal nonempty run of
non-quote characters, then one quote.  Deterministic because the greedy
run cannot contain the terminating quote. -/
def quotedValueAt (s : Str) : Option (Str × Str) :=
  let v := s.takeWhile (fun c => !isQuote c)
  if v.isEmpty then none
  else quoteAt (s.dropWhile (fun c => !isQuote c)) |>.map (fun r => (v, r))

/-- `[^"']*` followed by a closing `["']` (empty run allowed). -/
def quotedValue0At (s : Str) : Option (Str × Str) :=
  quoteAt (s.dropWhile (fun c => !isQuote c)) |>.map
    (fun r => (s.takeWhile (fun c => !isQuote c), r))

/-- `[^>]*>` — skip a maximal run of non-`>` characters and consume the
terminating `>`. -/
def toGt (s : Str) : Option Str :=
  match s.dropWhile (fun c => c != '>') with
  | '>' :: r => some r
  | _ => none

/-- Lazy `[\s\S]*?` up to the first case-insensitive occurrence of `pat`:
returns the characters before the occurrence and the suffix after it. -/
def splitAtSubCI (pat : Str) : Str → Option (Str × Str)
  | [] => (litAtCI pat []).map (fun r => ([], r))
  | c :: r =>
    match litAtCI pat (c :: r) with
    | some rest => some ([], rest)
    | none => (splitAtSubCI pat r).map (fun p => (c :: p.1, p.2))

/-- Case-insensitive substring test. -/
def containsSubCI (pat s : Str) : Bool := (splitAtSubCI pat s).isSome

/-- Case-sensitive variant of `splitAtSubCI`. -/
def splitAtSub (pat : Str) : Str → Option (Str × Str)
  | [] => (litAt pat []).map (fun r => ([], r))
  | c :: r =>
    match litAt pat (c :: r) with
    | some rest => some ([], rest)
    | none => (splitAtSub pat r).map (fun p => (c :: p.1, p.2))

/-- Case-sensitive substring test (`String.prototype.includes`). -/
def containsSub (pat s : Str) : Bool := (splitAtSub pat s).isSome

/-- Leftmost match of a prefix matcher `m` over a string: `m` is tried at
every index left to right, mirroring a non-anchored `RegExp.exec`.  `m`
returns the matched length together with its captures.  All matchers in
this file consume at least one character, so the empty-match case cannot
arise. -/
def findFirstAux (m : Str → Option (Nat × α)) : Str → Nat → Option (Nat × Nat × α)
  | [], _ => none
  | c :: rest, i =>
    match m (c :: rest) with
    | some (len, a) => some (i, len, a)
    | none => findFirstAux m rest (i + 1)

/-- Leftmost match: index, length and captures. -/
def findFirst (m : Str → Option (Nat × α)) (s : Str) : Option (Nat × Nat × α) :=
  findFirstAux m s 0

/-- All matches of a global regex: after each match the search resumes at
the match's end (the `lastIndex` discipline of a `g`-flagged `exec` loop);
a failed attempt advances one character.  The `skip` counter walks the
scanner past the remainder of the last match one character at a time,
keeping the recursion structural. -/
def findAllAux (m : Str → Option (Nat × α)) : Str → Nat → Nat → List (Nat × Nat × α)
  | [], _, _ => []
  | c :: rest, i, 0 =>
    (match m (c :: rest) with
     | some (len, a) => (i, len, a) :: findAllAux m rest (i + 1) (len - 1)
     | none => findAllAux m rest (i + 1) 0)
  | _ :: rest, i, skip + 1 => findAllAux m rest (i + 1) skip

/-- All matches, global-flag semantics. -/
def findAll (m : Str → Option (Nat × α)) (s : Str) : List (Nat × Nat × α) :=
  findAllAux m s 0 0

/-- The last position (scanning every index, overlapping allowed) at which
`m` matches — used to resolve a greedy `[^>]*` that precedes a literal, as
backtracking from the maximal run selects the last occurrence. -/
def findLastAux (m : Str → Option (Nat × α)) : Str → Nat → Option (Nat × Nat × α)
  | [], _ => none
  | c :: rest, i =>
    match findLastAux m rest (i + 1) with
    | some r => some r
    | none => (m (c :: rest)).map (fun (len, a) => (i, len, a))

/-- Rightmost match of `m` (greedy-star resolution). -/
def findLast (m : Str → Option (Nat × α)) (s : Str) : Option (Nat × Nat × α) :=
  findLastAux m s 0

/-- Does `m` match at some position of `s`? -/
def existsAt (m : Str → Option (Nat × α)) (s : Str) : Bool :=
  (findFirst m s).isSome

/-- Search with a one-character lookbehind, for `\b` assertions: `m` is
given the previous character (if any) and the current suffix. -/
def searchPrevAux (m : Option Char → Str → Bool) : Option Char → Str → Bool
  | prev, [] => m prev []
  | prev, c :: r => m prev (c :: r) || searchPrevAux m (some c) r

/-- Search an occurrence anywhere, with lookbehind for word boundaries. -/
def searchPrev (m : Option Char → Str → Bool) (s : Str) : Bool :=
  searchPrevAux m none s

/-- A `\b` boundary before a word character: start of string or a
non-word previous character. -/
def bdBefore (prev : Option Char) : Bool :=
  match prev with
  | none => true
  | some c => !isWordChar c

/-- A `\b` boundary after a word: end of string or a non-word character. -/
def bdAfter (s : Str) : Bool :=
  match s with
  | [] => true
  | c :: _ => !isWordChar c

/-- Search with lookbehind returning the first capture (for `exec`). -/
def searchPrevCapAux (m : Option Char → Str → Option α) : Option Char → Str → Option α
  | prev, [] => m prev []
  | prev, c :: r => (m prev (c :: r)) <|> searchPrevCapAux m (some c) r

/-- First capturing occurrence, with lookbehind for word boundaries. -/
def searchPrevCap (m : Option Char → Str → Option α) (s : Str) : Option α :=
  searchPrevCapAux m none s

/-- Shorthand turning a string literal into the character-list model. -/
def L (s : String) : Str := s.toList

/-! ## Positions, ranges and diagnostics (the `vscode` data the engine emits) -/

/-- `vscode.DiagnosticSeverity` (Error = 0, Warning = 1, Information = 2). -/
inductive Severity where
  | error
  | warning
  | information
deriving DecidableEq, Repr

/-- `vscode.Position`: zero-based line and character. -/
structure Position where
  line : Nat
  character : Nat
deriving DecidableEq, Repr

/-- `vscode.Range`: start and end positions. -/
structure Range where
  start : Position
  stop : Position
deriving DecidableEq, Repr

/-- `vscode.Diagnostic` as built by `buildDiagnostic`: range, message,
code, severity, and the fixed source tag. -/
structure Diagnostic where
  range : Range
  message : String
  code : String
  severity : Severity
  source : String
deriving DecidableEq, Repr

/-- `buildDiagnostic` from the source: assembles the common fields. -/
def buildDiagnostic (range : Range) (message : String) (code : String)
    (severity : Severity) : Diagnostic :=
  { range := range, message := message, code := code, severity := severity,
    source := "Kanmi" }

/-- Position of the end of a text prefix: lines are separated by LF, as in
`TextDocument.positionAt`. -/
def posOf : Str → Position
  | [] => ⟨0, 0⟩
  | c :: r =>
    let p := posOf r
    if c = '\n' then ⟨p.line + 1, p.character⟩
    else if p.line = 0 then ⟨0, p.character + 1⟩ else p

/-- `doc.positionAt(offset)`: the offset is clamped into the document and
converted to a line/character pair. -/
def positionAt (t : Str) (off : Nat) : Position := posOf (t.take off)

/-- A range between two character offsets of the document. -/
def rangeAt (t : Str) (a b : Nat) : Range := ⟨positionAt t a, positionAt t b⟩

/-- `new vscode.Range(new Position(0, 0), new Position(0, 1))`, the fixed
range used for document-anchored findings. -/
def docStartRange : Range := ⟨⟨0, 0⟩, ⟨0, 1⟩⟩

/-- The document's lines (split on LF; one more line than separators). -/
def linesOf : Str → List Str
  | [] => [[]]
  | c :: r =>
    if c = '\n' then [] :: linesOf r
    else
      match linesOf r with
      | [] => [[c]]
      | l :: ls => (c :: l) :: ls

/-- A position exists in the document: its line exists and its character
is at most that line's length. -/
def validPos (t : Str) (p : Position) : Prop :=
  p.line < (linesOf t).length ∧ p.character ≤ ((linesOf t).getD p.line []).length

instance (t : Str) (p : Position) : Decidable (validPos t p) := by
  unfold validPos; infer_instance

/-- Both endpoints of the range exist in the document. -/
def validRange (t : Str) (r : Range) : Prop :=
  validPos t r.start ∧ validPos t r.stop

instance (t : Str) (r : Range) : Decidable (validRange t r) := by
  unfold validRange; infer_instance

/-! ## Scanners for the source's regular expressions -/

/-- `/<title>([\s\S]*?)<\/title>/i` anchored at the current position:
matched length and the lazily captured title text. -/
def titleMatchAt (s : Str) : Option (Nat × Str) := do
  let r1 ← litAtCI (L "<title>") s
  let (content, r2) ← splitAtSubCI (L "</title>") r1
  return (s.length - r2.length, content)

/-- Leftmost `/<title>([\s\S]*?)<\/title>/i` match over the document. -/
def titleExec (t : Str) : Option (Nat × Nat × Str) := findFirst titleMatchAt t

/-- `/<head>/i.test(text)`. -/
def hasHeadTag (t : Str) : Bool := containsSubCI (L "<head>") t

/-- `/<meta\s+name=["']description["']\s+content=["']([^"']+)["'][^>]*>/i`
anchored at the current position; captures the description text. -/
def metaDescMatchAt (s : Str) : Option (Nat × Str) := do
  let r1 ← litAtCI (L "<meta") s
  let r2 ← ws1 r1
  let r3 ← litAtCI (L "name=") r2
  let r4 ← quoteAt r3
  let r5 ← litAtCI (L "description") r4
  let r6 ← quoteAt r5
  let r7 ← ws1 r6
  let r8 ← litAtCI (L "content=") r7
  let r9 ← quoteAt r8
  let (content, r10) ← quotedValueAt r9
  let r11 ← toGt r10
  return (s.length - r11.length, content)

/-- Leftmost meta-description match. -/
def metaDescExec (t : Str) : Option (Nat × Nat × Str) := findFirst metaDescMatchAt t

/-- `/<link\s+rel=["']canonical["']\s+href=["'][^"']+["'][^>]*>/i`. -/
def canonicalMatchAt (s : Str) : Option (Nat × Unit) := do
  let r1 ← litAtCI (L "<link") s
  let r2 ← ws1 r1
  let r3 ← litAtCI (L "rel=") r2
  let r4 ← quoteAt r3
  let r5 ← litAtCI (L "canonical") r4
  let r6 ← quoteAt r5
  let r7 ← ws1 r6
  let r8 ← litAtCI (L "href=") r7
  let r9 ← quoteAt r8
  let (_, r10) ← quotedValueAt r9
  let r11 ← toGt r10
  return (s.length - r11.length, ())

/-- Does the text contain a canonical link element? -/
def hasCanonical (t : Str) : Bool := existsAt canonicalMatchAt t

/-- `/<script\s+type=["']application\/ld\+json["']>/` (case-sensitive). -/
def jsonLdMatchAt (s : Str) : Option (Nat × Unit) := do
  let r1 ← litAt (L "<script") s
  let r2 ← ws1 r1
  let r3 ← litAt (L "type=") r2
  let r4 ← quoteAt r3
  let r5 ← litAt (L "application/ld+json") r4
  let r6 ← quoteAt r5
  let r7 ← litAt (L ">") r6
  return (s.length - r7.length, ())

/-- Does the text contain a JSON-LD script block? -/
def hasJsonLd (t : Str) : Bool := existsAt jsonLdMatchAt t

/-- The optional `[\s_-]?` separator in the add-to-cart heuristic. -/
def sepOpt (s : Str) : Str :=
  match s with
  | c :: r => if isWS c || c == '_' || c == '-' then r else c :: r
  | [] => []

/-- `add[\s_-]?to[\s_-]?cart` (case-insensitive), anchored. -/
def addToCartAt (s : Str) : Option (Nat × Unit) := do
  let r1 ← litAtCI (L "add") s
  let r2 ← litAtCI (L "to") (sepOpt r1)
  let r3 ← litAtCI (L "cart") (sepOpt r2)
  return (s.length - r3.length, ())

/-- `/(product|pdp|sku|price|add[\s_-]?to[\s_-]?cart)/i.test(text)`. -/
def isProductLikeText (t : Str) : Bool :=
  containsSubCI (L "product") t || containsSubCI (L "pdp") t ||
  containsSubCI (L "sku") t || containsSubCI (L "price") t || existsAt addToCartAt t

/-- `/(product|pdp|sku)/.test(fileLower)`. -/
def isProductLikeFile (fileLower : Str) : Bool :=
  containsSub (L "product") fileLower || containsSub (L "pdp") fileLower ||
  containsSub (L "sku") fileLower

/-- `/(blog|article|news|post)/i.test(text)`. -/
def isArticleLikeText (t : Str) : Bool :=
  containsSubCI (L "blog") t || containsSubCI (L "article") t ||
  containsSubCI (L "news") t || containsSubCI (L "post") t

/-- `/(blog|article)/.test(fileLower)`. -/
def isArticleLikeFile (fileLower : Str) : Bool :=
  containsSub (L "blog") fileLower || containsSub (L "article") fileLower

/-- One Open Graph meta tag,
`/<meta\s+property=["']og:NAME["']\s+content=["'][^"']+["'][^>]*>/i`. -/
def ogMetaAt (prop : Str) (s : Str) : Option (Nat × Unit) := do
  let r1 ← litAtCI (L "<meta") s
  let r2 ← ws1 r1
  let r3 ← litAtCI (L "property=") r2
  let r4 ← quoteAt r3
  let r5 ← litAtCI prop r4
  let r6 ← quoteAt r5
  let r7 ← ws1 r6
  let r8 ← litAtCI (L "content=") r7
  let r9 ← quoteAt r8
  let (_, r10) ← quotedValueAt r9
  let r11 ← toGt r10
  return (s.length - r11.length, ())

/-- Presence test for one `og:` property. -/
def ogPresent (t : Str) (prop : String) : Bool := existsAt (ogMetaAt (L prop)) t

/-- The four checked Open Graph properties, in source order. -/
def ogTagNames : List String := ["og:title", "og:description", "og:image", "og:url"]

/-- The absent Open Graph tags, in source order (the `missingOg` array). -/
def missingOg (t : Str) : List String := ogTagNames.filter (fun n => !ogPresent t n)

/-- `Buffer.byteLength(text, 'utf8')`: exact UTF-8 byte count. -/
def byteLength (t : Str) : Nat := (t.map Char.utf8Size).sum

/-- `Math.round(bytes / 1024)` — exact, because a float division by a
power of two is exact and JavaScript rounds half up. -/
def roundKB (bytes : Nat) : Nat := (bytes + 512) / 1024

/-- `Math.round(bytes / 1024 / 1024)`, same reasoning. -/
def roundMB (bytes : Nat) : Nat := (bytes + 524288) / 1048576

/-- `/<[a-zA-Z][^\/>]*>/` anchored: an opening tag containing no `/`
anywhere before its closing `>`. -/
def openTagMatchAt (s : Str) : Option (Nat × Unit) :=
  match s with
  | '<' :: c :: r =>
    if isAsciiLetter c then
      match (c :: r).dropWhile (fun x => x != '/' && x != '>') with
      | '>' :: rest => some (s.length - rest.length, ())
      | _ => none
    else none
  | _ => none

/-- `text.match(/<[a-zA-Z][^\/>]*>/g).length`, the DOM element count. -/
def totalElements (t : Str) : Nat := (findAll openTagMatchAt t).length

/-- One token of the depth tracker's tag stream. -/
structure Tag where
  closing : Bool
  name : Str
  slashEnd : Bool
deriving DecidableEq, Repr

/-- Does the attribute residue end in a slash?  The full tag always ends
in the closing angle, so `fullTag.endsWith` of a slash-angle pair holds
exactly when this does. -/
def slashLast (attrs : Str) : Bool :=
  match attrs.getLast? with
  | some c => c == '/'
  | none => false

/-- `/<\/?([a-zA-Z][a-zA-Z0-9]*)[^>]*>/` anchored: optional `/`, a tag
name, attribute residue, closing `>`.  The name is lowercased as in the
source; the slash flag models `fullTag.endsWith` of a slash-angle pair. -/
def tagMatchAt (s : Str) : Option (Nat × Tag) :=
  match s with
  | '<' :: r0 =>
    match r0 with
    | [] => none
    | c0 :: r0t =>
      let closing := c0 == '/'
      let r1 := if closing then r0t else c0 :: r0t
      match r1 with
      | c :: r2 =>
        if isAsciiLetter c then
          let nm := c :: r2.takeWhile isTagChar
          let r3 := r2.dropWhile isTagChar
          let attrs := r3.takeWhile (fun x => x != '>')
          match r3.dropWhile (fun x => x != '>') with
          | '>' :: rest =>
            some (s.length - rest.length,
              ⟨closing, nm.map Char.toLower, slashLast attrs⟩)
          | _ => none
        else none
      | [] => none
  | _ => none

/-- The tag stream of the depth tracker (global regex iteration). -/
def docTags (t : Str) : List Tag := (findAll tagMatchAt t).map (fun x => x.2.2)

/-- The fixed void-element set of `calculateMaxDOMDepth`. -/
def selfClosingNames : List Str :=
  ["area", "base", "br", "col", "embed", "hr", "img", "input", "link",
   "meta", "param", "source", "track", "wbr"].map (·.toList)

/-- Membership in the void-element set. -/
def isVoidTag (nm : Str) : Bool := selfClosingNames.contains nm

/-- One loop iteration of `calculateMaxDOMDepth` on the state
`(maxDepth, currentDepth)`; the decrement is `Math.max(0, d - 1)`. -/
def depthStep (st : Int × Int) (tag : Tag) : Int × Int :=
  if isVoidTag tag.name || tag.slashEnd then st
  else if tag.closing then (st.1, max 0 (st.2 - 1))
  else (max st.1 (st.2 + 1), st.2 + 1)

/-- `calculateMaxDOMDepth(html)`: the maximum depth observed. -/
def calculateMaxDOMDepth (html : Str) : Int :=
  ((docTags html).foldl depthStep (0, 0)).1

/-- Every intermediate `(maxDepth, currentDepth)` state of the tracker's
left-to-right pass, initial state included. -/
def depthTrace (html : Str) : List (Int × Int) :=
  (docTags html).scanl depthStep (0, 0)

/-- `/<head[^>]*>([\s\S]*?)<\/head>/i` anchored; besides the matched
length it yields the content offset relative to the match start
(`headMatch[0].indexOf` of the first closing angle, plus one — the
attribute residue holds no closing angle, so this is `5 + attrs + 1`)
and the captured head content. -/
def headMatchAt (s : Str) : Option (Nat × Nat × Str) := do
  let r1 ← litAtCI (L "<head") s
  let attrs := r1.takeWhile (fun c => c != '>')
  let r2 ← toGt r1
  let (content, r3) ← splitAtSubCI (L "</head>") r2
  return (s.length - r3.length, 6 + attrs.length, content)

/-- Leftmost head-section match: index, length, content offset, content. -/
def headExec (t : Str) : Option (Nat × Nat × Nat × Str) := findFirst headMatchAt t

/-- `/<meta\s+charset=/i` anchored. -/
def charsetMatchAt (s : Str) : Option (Nat × Unit) := do
  let r1 ← litAtCI (L "<meta") s
  let r2 ← ws1 r1
  let r3 ← litAtCI (L "charset=") r2
  return (s.length - r3.length, ())

/-- A case-insensitive literal as an anchored matcher. -/
def litMatchCI (pat : Str) (s : Str) : Option (Nat × Unit) :=
  (litAtCI pat s).map (fun r => (s.length - r.length, ()))

/-- `rel=["']VALUE["']` (case-insensitive), anchored. -/
def relValueAt (value : Str) (s : Str) : Option (Nat × Unit) := do
  let r1 ← litAtCI (L "rel=") s
  let r2 ← quoteAt r1
  let r3 ← litAtCI value r2
  let r4 ← quoteAt r3
  return (s.length - r4.length, ())

/-- `/<link\s+[^>]*rel=["']stylesheet["']/i` anchored: the greedy star
cannot cross a closing angle, and backtracking from its maximal run
selects the rightmost `rel=` occurrence in the tag span. -/
def stylesheetLinkAt (s : Str) : Option (Nat × Unit) := do
  let r1 ← litAtCI (L "<link") s
  let r2 ← ws1 r1
  let span := r2.takeWhile (fun c => c != '>')
  let (i, len, _) ← findLast (relValueAt (L "stylesheet")) span
  return (s.length - r2.length + i + len, ())

/-- `/<script[^>]*>/i` anchored. -/
def scriptOpenAt (s : Str) : Option (Nat × Unit) := do
  let r1 ← litAtCI (L "<script") s
  let r2 ← toGt r1
  return (s.length - r2.length, ())

/-- `/<img\s+([^>]*?)>/i` anchored, capturing the attribute text. -/
def imgMatchAt (s : Str) : Option (Nat × Str) := do
  let r1 ← litAtCI (L "<img") s
  let r2 ← ws1 r1
  let attrs := r2.takeWhile (fun c => c != '>')
  let r3 ← toGt r2
  return (s.length - r3.length, attrs)

/-- Tail of `/\balt\s*=\s*["'][^"']*["']/` after the boundary. -/
def altAttrTail (s : Str) : Option Unit := do
  let r1 ← litAt (L "alt") s
  let r2 ← litAt (L "=") (ws0 r1)
  let r3 ← quoteAt (ws0 r2)
  let (_, _r4) ← quotedValue0At r3
  pure ()

/-- `/\balt\s*=\s*["'][^"']*["']/.test(attrs)`. -/
def hasAlt (attrs : Str) : Bool :=
  searchPrev (fun p s => bdBefore p && (altAttrTail s).isSome) attrs

/-- Tail of `/\bWORD\s*=/` after the boundary. -/
def eqAfterWord (word : Str) (s : Str) : Option Unit := do
  let r1 ← litAt word s
  let _ ← litAt (L "=") (ws0 r1)
  pure ()

/-- `/\bwidth\s*=/.test(attrs)`. -/
def hasWidth (attrs : Str) : Bool :=
  searchPrev (fun p s => bdBefore p && (eqAfterWord (L "width") s).isSome) attrs

/-- `/\bheight\s*=/.test(attrs)`. -/
def hasHeight (attrs : Str) : Bool :=
  searchPrev (fun p s => bdBefore p && (eqAfterWord (L "height") s).isSome) attrs

/-- Tail of `/\bloading\s*=\s*["'](lazy|eager)["']/i` after the boundary. -/
def loadingTail (s : Str) : Option Unit := do
  let r1 ← litAtCI (L "loading") s
  let r2 ← litAt (L "=") (ws0 r1)
  let r3 ← quoteAt (ws0 r2)
  let r4 ← (litAtCI (L "lazy") r3 <|> litAtCI (L "eager") r3)
  let _ ← quoteAt r4
  pure ()

/-- `/\bloading\s*=\s*["'](lazy|eager)["']/i.test(attrs)`. -/
def hasLoading (attrs : Str) : Bool :=
  searchPrev (fun p s => bdBefore p && (loadingTail s).isSome) attrs

/-- The lazy `([^>]*?)\/?>` of the framework-image regex: stop at the
first `>` or `/>`. -/
def lazyAttrsScan : Str → Option (Str × Str)
  | [] => none
  | '>' :: r => some ([], r)
  | '/' :: '>' :: r => some ([], r)
  | c :: r => (lazyAttrsScan r).map (fun p => (c :: p.1, p.2))

/-- `/<Image\s+([^>]*?)\/?>/i` anchored (the `i` flag also accepts a
lowercase component name), capturing the attribute text. -/
def nextImageMatchAt (s : Str) : Option (Nat × Str) := do
  let r1 ← litAtCI (L "<image") s
  let r2 ← ws1 r1
  let (attrs, r3) ← lazyAttrsScan r2
  return (s.length - r3.length, attrs)

/-- `/\bsizes\s*=/.test(attrs)`. -/
def hasSizes (attrs : Str) : Bool :=
  searchPrev (fun p s => bdBefore p && (eqAfterWord (L "sizes") s).isSome) attrs

/-- `/\bpriority\b/.test(attrs)`. -/
def hasPriorityWord (attrs : Str) : Bool :=
  searchPrev (fun p s => bdBefore p &&
    (match litAt (L "priority") s with
     | some r => bdAfter r
     | none => false)) attrs

/-- Tail of `/\bpriority\s*=\s*\x7b?true\x7d?/` after the boundary (the
braces of the regex are optional literals). -/
def priorityTrueTail (s : Str) : Option Unit := do
  let r1 ← litAt (L "priority") s
  let r2 ← litAt (L "=") (ws0 r1)
  let r3 := ws0 r2
  let r4 := match r3 with
    | c :: r => if c == '{' then r else r3
    | [] => r3
  let _ ← litAt (L "true") r4
  pure ()

/-- `/\bpriority\s*=\s*\x7b?true\x7d?/.test(attrs)`. -/
def hasPriorityTrue (attrs : Str) : Bool :=
  searchPrev (fun p s => bdBefore p && (priorityTrueTail s).isSome) attrs

/-- `hasPriority` of the framework-image loop. -/
def hasPriority (attrs : Str) : Bool := hasPriorityWord attrs || hasPriorityTrue attrs

/-- Tail of `/\bsrc\s*=\s*\x7b?["']([^"']+)["']\x7d?/` after the boundary,
capturing the source path. -/
def srcTail (s : Str) : Option Str := do
  let r1 ← litAt (L "src") s
  let r2 ← litAt (L "=") (ws0 r1)
  let r3 := ws0 r2
  let r4 := match r3 with
    | c :: r => if c == '{' then r else r3
    | [] => r3
  let r5 ← quoteAt r4
  let (v, _) ← quotedValueAt r5
  pure v

/-- `srcMatch ? srcMatch[1] : ''` of the framework-image loop. -/
def srcOf (attrs : Str) : Str :=
  (searchPrevCap (fun p s => if bdBefore p then srcTail s else none) attrs).getD []

/-- `likelyLcp`: a hero-like source path or an existing priority word. -/
def likelyLcp (attrs : Str) : Bool :=
  containsSubCI (L "hero") (srcOf attrs) || containsSubCI (L "banner") (srcOf attrs) ||
  containsSubCI (L "masthead") (srcOf attrs) || hasPriorityWord attrs

/-- `/@font-face\s*\x7b[\s\S]*?\x7d/i` anchored, returning the full
matched block text. -/
def fontFaceMatchAt (s : Str) : Option (Nat × Str) := do
  let r1 ← litAtCI (L "@font-face") s
  let r2 := ws0 r1
  let r3 ← (match r2 with
    | c :: r => if c == '{' then some r else none
    | [] => none)
  let (_, r4) ← splitAtSub [Char.ofNat 125] r3
  let blockLen := s.length - r4.length
  return (blockLen, s.take blockLen)

/-- `/font-display\s*:\s*swap/` anchored. -/
def fontDisplaySwapAt (s : Str) : Option (Nat × Unit) := do
  let r1 ← litAt (L "font-display") s
  let r2 ← litAt (L ":") (ws0 r1)
  let r3 ← litAt (L "swap") (ws0 r2)
  return (s.length - r3.length, ())

/-- `/font-display\s*:\s*swap/.test(block)`. -/
def hasFontDisplaySwap (block : Str) : Bool := existsAt fontDisplaySwapAt block

/-- `as=["']VALUE["']` (case-insensitive), anchored. -/
def asValueAt (value : Str) (s : Str) : Option (Nat × Unit) := do
  let r1 ← litAtCI (L "as=") s
  let r2 ← quoteAt r1
  let r3 ← litAtCI value r2
  let r4 ← quoteAt r3
  return (s.length - r4.length, ())

/-- `/<link\s+[^>]*rel=["']preload["'][^>]*as=["']font["'][^>]*>/i`
anchored: a preload `rel` followed, inside the same tag span, by a font
`as`, the whole tag closed by `>`.  Choosing the earliest `rel=`
occurrence preserves exactly the matches the backtracking engine finds. -/
def preloadFontLinkAt (s : Str) : Option (Nat × Unit) := do
  let r1 ← litAtCI (L "<link") s
  let r2 ← ws1 r1
  let span := r2.takeWhile (fun c => c != '>')
  let r3 ← toGt r2
  let (i, len, _) ← findFirst (relValueAt (L "preload")) span
  let _ ← findFirst (asValueAt (L "font")) (span.drop (i + len))
  return (s.length - r3.length, ())

/-- `text.match(preloadFontRegex).length`: the font-preload count. -/
def preloadFontCount (t : Str) : Nat := (findAll preloadFontLinkAt t).length

/-- Tail `\s+from\s+['"]([^'"]+)['"]` of the ES6 import alternative. -/
def importTailAt (s : Str) : Option (Nat × Str) := do
  let r1 ← ws1 s
  let r2 ← litAt (L "from") r1
  let r3 ← ws1 r2
  let r4 ← quoteAt r3
  let (v, r5) ← quotedValueAt r4
  return (s.length - r5.length, v)

/-- The lazy `.*?` before that tail: dots cannot cross a line break, and
the shortest extension wins. -/
def lazyDotThen : Str → Option (Nat × Str)
  | [] => none
  | c :: r =>
    match importTailAt (c :: r) with
    | some p => some p
    | none =>
      if c == '\n' || c == '\r' then none
      else (lazyDotThen r).map (fun p => (p.1 + 1, p.2))

/-- Backtracking for the greedy `\s+` after `import`: try the maximal
whitespace run first, then shorter runs down to a single character. -/
def importWsScan (s : Str) : Nat → Option (Nat × Str)
  | 0 => none
  | j + 1 =>
    match lazyDotThen (s.drop (j + 1)) with
    | some (l, v) => some (j + 1 + l, v)
    | none => importWsScan s j

/-- `import\s+.*?\s+from\s+['"]([^'"]+)['"]` anchored. -/
def importBranchAt (s : Str) : Option (Nat × Str) := do
  let r1 ← litAt (L "import") s
  let (l, v) ← importWsScan r1 (r1.takeWhile isWS).length
  return (6 + l, v)

/-- `require\s*\(\s*['"]([^'"]+)['"]\s*\)` anchored. -/
def requireBranchAt (s : Str) : Option (Nat × Str) := do
  let r1 ← litAt (L "require") s
  let r2 ← litAt (L "(") (ws0 r1)
  let r3 ← quoteAt (ws0 r2)
  let (v, r4) ← quotedValueAt r3
  let r5 ← litAt (L ")") (ws0 r4)
  return (s.length - r5.length, v)

/-- The full import regex: the ES6 alternative takes priority at each
position, as in the source's alternation. -/
def importMatchAt (s : Str) : Option (Nat × Str) :=
  importBranchAt s <|> requireBranchAt s

/-- `String.prototype.split` on a separator character. -/
def splitOnChar (sep : Char) : Str → List Str
  | [] => [[]]
  | c :: r =>
    if c == sep then [] :: splitOnChar sep r
    else
      match splitOnChar sep r with
      | [] => [[c]]
      | l :: ls => (c :: l) :: ls

/-- `Array.prototype.join` with a slash separator. -/
def joinSlash : List Str → Str
  | [] => []
  | [x] => x
  | x :: xs => x ++ '/' :: joinSlash xs

/-- Package-identity extraction: a path starting with the scope marker
(`importPath.startsWith` of the at-sign) keeps its first two segments
(`split('/').slice(0, 2).join('/')`), a plain path its first. -/
def extractPackageName (p : Str) : Str :=
  match p with
  | '@' :: _ => joinSlash ((splitOnChar '/' p).take 2)
  | _ => (splitOnChar '/' p).headD []

/-- The static heavy-library table: package name, estimated KB,
suggested alternative. -/
def heavyLibraries : List (Str × Nat × String) :=
  [(L "moment", 67, "date-fns (2KB)"),
   (L "moment-timezone", 190, "date-fns-tz (11KB)"),
   (L "lodash", 72, "lodash-es + tree-shaking"),
   (L "jquery", 87, "vanilla JS or cash-dom (6KB)"),
   (L "@material-ui/core", 350, "@mui/material with tree-shaking"),
   (L "rxjs", 166, "rxjs + specific operators only"),
   (L "xlsx", 800, "xlsx-populate (smaller)"),
   (L "chart.js", 150, "chartist (10KB)"),
   (L "three", 580, "three + tree-shaking"),
   (L "d3", 250, "d3 + specific modules only")]

/-- `heavyLibraries[packageName]`. -/
def heavyLookup (nm : Str) : Option (Nat × String) :=
  (heavyLibraries.find? (fun e => e.1 == nm)).map (fun e => e.2)

/-- `src=["']([^"']+)["']` (case-insensitive), anchored. -/
def srcAttrAt (s : Str) : Option (Nat × Str) := do
  let r1 ← litAtCI (L "src=") s
  let r2 ← quoteAt r1
  let (v, r3) ← quotedValueAt r2
  return (s.length - r3.length, v)

/-- `/<script[^>]+src=["']([^"']+)["'][^>]*>/i` anchored: the greedy
`[^>]+` selects the rightmost `src=` in the tag span and requires at
least one character before it; the match runs to the tag's `>`. -/
def scriptSrcMatchAt (s : Str) : Option (Nat × Str) := do
  let r1 ← litAtCI (L "<script") s
  let span := r1.takeWhile (fun c => c != '>')
  let r2 ← toGt r1
  let (i, _, v) ← findLast srcAttrAt span
  if 1 ≤ i then return (s.length - r2.length, v) else none

/-- All external-script matches (index, length, `src` capture). -/
def scriptMatches (t : Str) : List (Nat × Nat × Str) := findAll scriptSrcMatchAt t

/-- `/\basync\b/.test(tag) || /\bdefer\b/.test(tag)` — word with both
boundaries. -/
def hasWordBoth (w : Str) (tag : Str) : Bool :=
  searchPrev (fun p s => bdBefore p &&
    (match litAt w s with
     | some r => bdAfter r
     | none => false)) tag

/-- `href=["']([^"']+)["']` (case-insensitive), anchored. -/
def hrefAttrAt (s : Str) : Option (Nat × Str) := do
  let r1 ← litAtCI (L "href=") s
  let r2 ← quoteAt r1
  let (v, r3) ← quotedValueAt r2
  return (s.length - r3.length, v)

/-- `/<link\s+[^>]*rel=["']stylesheet["'][^>]*href=["']([^"']+)["']/i`
anchored: a stylesheet `rel` followed in the same tag span by an `href`
capture; greedy stars resolved to the rightmost occurrences. -/
def stylesheetHrefMatchAt (s : Str) : Option (Nat × Str) := do
  let r1 ← litAtCI (L "<link") s
  let r2 ← ws1 r1
  let span := r2.takeWhile (fun c => c != '>')
  let (i, len, _) ← findLast (relValueAt (L "stylesheet")) span
  let (j, hlen, v) ← findLast hrefAttrAt (span.drop (i + len))
  return (s.length - r2.length + i + len + j + hlen, v)

/-- The stylesheet `href` captures of the document, in order. -/
def styleHrefs (t : Str) : List Str :=
  (findAll stylesheetHrefMatchAt t).map (fun x => x.2.2)

/-- `/<link\s+[^>]*rel=["']preconnect["']/i` anchored. -/
def preconnectLinkAt (s : Str) : Option (Nat × Unit) := do
  let r1 ← litAtCI (L "<link") s
  let r2 ← ws1 r1
  let span := r2.takeWhile (fun c => c != '>')
  let (i, len, _) ← findFirst (relValueAt (L "preconnect")) span
  return (s.length - r2.length + i + len, ())

/-- `hasPreconnect`. -/
def hasPreconnect (t : Str) : Bool := existsAt preconnectLinkAt t

/-- Models the platform URL parser used at `new URL(src).origin`: scheme,
`://`, host up to the first delimiter, lowercased; `none` models the
thrown-and-caught parse failure. -/
def urlOrigin (src : Str) : Option Str :=
  match splitAtSub (L "://") src with
  | some (scheme, rest) =>
    if scheme ≠ [] && scheme.all isAsciiLetter then
      let host := rest.takeWhile (fun c => c != '/' && c != '?' && c != '#')
      if host = [] then none
      else some (scheme.map Char.toLower ++ L "://" ++ host.map Char.toLower)
    else none
  | none => none

/-- `Set.prototype.add`, preserving the set's insertion order. -/
def addOrigin (ds : List Str) (o : Str) : List Str :=
  if ds.contains o then ds else ds ++ [o]

/-- Fold the origin collection of the script and stylesheet loops:
only URLs starting with `http` are parsed; parse failures are ignored. -/
def originsOf (urls : List Str) (init : List Str) : List Str :=
  urls.foldl (fun acc u =>
    if (litAt (L "http") u).isSome then
      match urlOrigin u with
      | some o => addOrigin acc o
      | none => acc
    else acc) init

/-- `externalDomains` after both collection loops: scripts first, then
stylesheets. -/
def externalDomains (t : Str) : List Str :=
  originsOf (styleHrefs t) (originsOf ((scriptMatches t).map (fun x => x.2.2)) [])

/-! ## Policy and the detector set -/

/-- The resolved policy record consumed by the engine (§3 of the spec):
built-in defaults overlaid by the optional project file. -/
structure Policy where
  titleMin : Nat
  titleMax : Nat
  metaDescriptionMin : Nat
  metaDescriptionMax : Nat
  requireCanonical : Bool
  requireJsonLdFor : List String
  maxThirdPartyScriptsPerPage : Nat
  lcpImageKB : Nat
  requireFontDisplaySwap : Bool
deriving DecidableEq, Repr

/-- The built-in defaults (the `??` fallbacks of the source, with the
workspace configuration left unconfigured). -/
def defaultPolicy : Policy :=
  { titleMin := 30, titleMax := 60, metaDescriptionMin := 50,
    metaDescriptionMax := 160, requireCanonical := true, requireJsonLdFor := [],
    maxThirdPartyScriptsPerPage := 6, lcpImageKB := 0,
    requireFontDisplaySwap := false }

/-- `within(n, min, max)`: inclusive interval membership. -/
def within (n min max : Nat) : Bool := decide (min ≤ n) && decide (n ≤ max)

/-- `String.prototype.trim` (ASCII whitespace model). -/
def jsTrim (s : Str) : Str :=
  ((s.dropWhile isWS).reverse.dropWhile isWS).reverse

/-- The Next.js framework markers. -/
def isNextJs (text : Str) : Bool :=
  containsSub (L "next/head") text || containsSub (L "from \"next\"") text ||
  containsSub (L "from 'next'") text

/-- The React markers (computed by the source but never consulted). -/
def isReact (text : Str) : Bool :=
  containsSub (L "import React") text || containsSub (L "from \"react\"") text ||
  containsSub (L "from 'react'") text

/-- `/\.(jsx|tsx)$/.test(fileName)`. -/
def isJsxFile (fileName : Str) : Bool :=
  (L ".jsx").isSuffixOf fileName || (L ".tsx").isSuffixOf fileName

/-- `/\.(jsx?|tsx?|html)$/.test(fileName)`: the supported file classes. -/
def isSupportedFile (fileName : Str) : Bool :=
  (L ".js").isSuffixOf fileName || (L ".jsx").isSuffixOf fileName ||
  (L ".ts").isSuffixOf fileName || (L ".tsx").isSuffixOf fileName ||
  (L ".html").isSuffixOf fileName

/-- Title presence/length rule. -/
def titleDiags (text fileName : Str) (policy : Policy) : List Diagnostic :=
  match titleExec text with
  | some (idx, len, content) =>
    let title := jsTrim content
    if !within title.length policy.titleMin policy.titleMax then
      [buildDiagnostic (rangeAt text idx (idx + len))
        ("Title length is " ++ toString title.length ++ " characters; aim for " ++
          toString policy.titleMin ++ "–" ++ toString policy.titleMax ++ " characters.")
        "SEO_TITLE_LENGTH" .warning]
    else []
  | none =>
    if hasHeadTag text && !isNextJs text && !isJsxFile fileName then
      [buildDiagnostic docStartRange
        "Missing <title>. Add a focused, query‑matching title (30–60 characters)."
        "SEO_TITLE_MISSING" .warning]
    else []

/-- Meta-description presence/length rule. -/
def metaDescDiags (text : Str) (policy : Policy) : List Diagnostic :=
  match metaDescExec text with
  | some (idx, len, content) =>
    let desc := jsTrim content
    if !within desc.length policy.metaDescriptionMin policy.metaDescriptionMax then
      [buildDiagnostic (rangeAt text idx (idx + len))
        ("Meta description is " ++ toString desc.length ++ " characters; aim for " ++
          toString policy.metaDescriptionMin ++ "–" ++
          toString policy.metaDescriptionMax ++ " characters.")
        "SEO_META_DESC_LENGTH" .information]
    else []
  | none =>
    [buildDiagnostic docStartRange
      "Missing meta description. Add a 50–160 character description to improve click‑through rate."
      "SEO_META_DESC_MISSING" .warning]

/-- Canonical-link rule. -/
def canonicalDiags (text : Str) (policy : Policy) : List Diagnostic :=
  if policy.requireCanonical && !hasCanonical text then
    [buildDiagnostic docStartRange
      "Missing canonical link. Add <link rel=\"canonical\" href=\"…\"> to declare a preferred URL."
      "SEO_CANONICAL_MISSING" .warning]
  else []

/-- JSON-LD structured-data hints. -/
def jsonLdDiags (text fileName : Str) (policy : Policy) : List Diagnostic :=
  if policy.requireJsonLdFor.isEmpty then []
  else
    let fileLower := fileName.map Char.toLower
    let hasJ := hasJsonLd text
    let productLike := isProductLikeText text || isProductLikeFile fileLower
    let articleLike := isArticleLikeText text || isArticleLikeFile fileLower
    (if policy.requireJsonLdFor.contains "Product" && productLike && !hasJ then
      [buildDiagnostic docStartRange
        "Product page likely missing JSON‑LD (Product). Consider adding product structured data."
        "SEO_JSONLD_PRODUCT_MISSING" .information]
     else []) ++
    (if policy.requireJsonLdFor.contains "Article" && articleLike && !hasJ then
      [buildDiagnostic docStartRange
        "Article page likely missing JSON‑LD (Article). Consider adding article structured data."
        "SEO_JSONLD_ARTICLE_MISSING" .information]
     else [])

/-- Open Graph coverage rule. -/
def ogDiags (text : Str) : List Diagnostic :=
  if 3 ≤ (missingOg text).length && hasHeadTag text then
    [buildDiagnostic docStartRange
      ("Missing " ++ toString (missingOg text).length ++ "/4 Open Graph tags: " ++
        String.intercalate ", " (missingOg text) ++ ". These improve social media sharing.")
      "SEO_OG_TAGS_MISSING" .information]
  else []

/-- HTML payload-size tiers: an exclusive three-band chain, plus the
additive critical band (thresholds scaled to exact byte counts). -/
def htmlSizeDiags (text : Str) : List Diagnostic :=
  let bytes := byteLength text
  (if 102400 < bytes && bytes ≤ 153600 then
    [buildDiagnostic docStartRange
      ("HTML file is " ++ toString (roundKB bytes) ++
        "KB. Consider code splitting or removing inline data. (Web Almanac p90: 147KB)")
      "PERF_HTML_SIZE_LARGE" .warning]
   else if 153600 < bytes && bytes ≤ 10240000 then
    [buildDiagnostic docStartRange
      ("HTML file is " ++ toString (roundKB bytes) ++
        "KB - larger than 90% of websites. This impacts parsing performance.")
      "PERF_HTML_SIZE_EXCESSIVE" .error]
   else if 10240000 < bytes then
    [buildDiagnostic docStartRange
      ("HTML file is " ++ toString (roundMB bytes) ++
        "MB. Approaching Google's 15MB WRS limit. Consider pagination or dynamic loading.")
      "WRS_HTML_SIZE_APPROACHING_LIMIT" .warning]
   else []) ++
  (if 14336000 < bytes then
    [buildDiagnostic docStartRange
      ("HTML file is " ++ toString (roundMB bytes) ++
        "MB. Google WRS will truncate at 15MB. URGENT: Reduce file size!")
      "WRS_HTML_SIZE_CRITICAL" .error]
   else [])

/-- DOM element-count budget (additive tiers). -/
def domSizeDiags (text : Str) : List Diagnostic :=
  let n := totalElements text
  (if 800 < n then
    [buildDiagnostic docStartRange
      ("DOM has " ++ toString n ++
        " elements. Google WRS recommends < 800 for optimal rendering. Consider pagination or lazy loading.")
      "WRS_DOM_SIZE_WARNING" .information]
   else []) ++
  (if 1500 < n then
    [buildDiagnostic docStartRange
      ("DOM has " ++ toString n ++
        " elements. Google WRS hard limit is 1,500. Page may not render correctly in search results.")
      "WRS_DOM_SIZE_EXCEEDED" .error]
   else [])

/-- DOM depth budget (additive tiers). -/
def domDepthDiags (text : Str) : List Diagnostic :=
  let d := calculateMaxDOMDepth text
  (if 25 < d then
    [buildDiagnostic docStartRange
      ("DOM depth is " ++ toString d ++
        " levels. Google WRS recommends < 32 to avoid rendering issues. Flatten your HTML structure.")
      "WRS_DOM_DEPTH_WARNING" .information]
   else []) ++
  (if 32 < d then
    [buildDiagnostic docStartRange
      ("DOM depth is " ++ toString d ++
        " levels - exceeds Google WRS limit of 32. Googlebot may fail to render this page.")
      "WRS_DOM_DEPTH_EXCEEDED" .error]
   else [])

/-- Head element ordering checks. -/
def headOrderDiags (text : Str) : List Diagnostic :=
  match headExec text with
  | none => []
  | some (idx, _, off, content) =>
    let headStart := idx + off
    let charsetM := findFirst charsetMatchAt content
    let titleM := findFirst (litMatchCI (L "<title>")) content
    let styleM := findFirst stylesheetLinkAt content
    let scriptM := findFirst scriptOpenAt content
    (match charsetM with
     | some (ci, _, _) =>
       if 100 < ci then
         [buildDiagnostic ⟨positionAt text (headStart + ci), positionAt text (headStart + ci)⟩
           "<meta charset> should be the first element in <head> to prevent re-parsing."
           "SEO_CHARSET_ORDERING" .warning]
       else []
     | none => []) ++
    (match titleM, styleM with
     | some (ti, _, _), some (si, _, _) =>
       if si < ti then
         [buildDiagnostic ⟨positionAt text (headStart + ti), positionAt text (headStart + ti)⟩
           "<title> should appear before stylesheets for faster discovery by search engines."
           "SEO_TITLE_ORDERING" .information]
       else []
     | _, _ => []) ++
    (match titleM, scriptM with
     | some (ti, _, _), some (si, _, _) =>
       if si < ti then
         [buildDiagnostic ⟨positionAt text (headStart + ti), positionAt text (headStart + ti)⟩
           "<title> should appear before blocking scripts to avoid crawl delays."
           "SEO_TITLE_SCRIPT_ORDERING" .information]
       else []
     | _, _ => [])

/-- Plain `<img>` attribute checks. -/
def imgDiags (text : Str) : List Diagnostic :=
  (findAll imgMatchAt text).flatMap (fun m =>
    let attrs := m.2.2
    let range := rangeAt text m.1 (m.1 + m.2.1)
    (if !hasAlt attrs then
      [buildDiagnostic range
        "Image missing alt attribute. Add a meaningful `alt` for accessibility and SEO."
        "SEO_IMG_ALT_MISSING" .warning]
     else []) ++
    (if !hasWidth attrs || !hasHeight attrs then
      [buildDiagnostic range
        "Image missing width/height attributes. Explicit dimensions prevent layout shift."
        "PERF_IMG_DIMENSIONS_MISSING" .warning]
     else []) ++
    (if !hasLoading attrs then
      [buildDiagnostic range
        "Consider adding loading=\"lazy\" to defer off‑screen images."
        "PERF_IMG_LOADING_MISSING" .information]
     else []))

/-- Framework `<Image />` component checks. -/
def nextImageDiags (text : Str) : List Diagnostic :=
  (findAll nextImageMatchAt text).flatMap (fun m =>
    let attrs := m.2.2
    let range := rangeAt text m.1 (m.1 + m.2.1)
    (if !hasSizes attrs then
      [buildDiagnostic range
        "next/image missing `sizes` attribute. Without it, the browser may fetch incorrect resolutions."
        "PERF_NEXTIMG_SIZES_MISSING" .warning]
     else []) ++
    (if likelyLcp attrs && !hasPriority attrs then
      [buildDiagnostic range
        "Likely LCP image missing `priority`. Add `priority` to improve initial load."
        "PERF_NEXTIMG_PRIORITY_MISSING" .information]
     else []))

/-- `@font-face` swap checks. -/
def fontDiags (text : Str) : List Diagnostic :=
  (findAll fontFaceMatchAt text).flatMap (fun m =>
    if !hasFontDisplaySwap m.2.2 then
      [buildDiagnostic (rangeAt text m.1 (m.1 + m.2.1))
        "Custom font is missing `font-display: swap`. This can block rendering."
        "PERF_FONT_DISPLAY_MISSING" .warning]
    else [])

/-- Font-preload count check. -/
def preloadDiags (text : Str) : List Diagnostic :=
  if 4 < preloadFontCount text then
    [buildDiagnostic docStartRange
      ("Too many font preloads (" ++ toString (preloadFontCount text) ++
        "). Limit preloaded fonts to critical subsets.")
      "PERF_FONT_PRELOAD_EXCESS" .information]
  else []

/-- All import/require matches of the document. -/
def importMatches (t : Str) : List (Nat × Nat × Str) := findAll importMatchAt t

/-- The accumulated heavy-dependency estimate (KB). -/
def totalEstimatedBundleSize (t : Str) : Nat :=
  (importMatches t).foldl (fun acc m =>
    match heavyLookup (extractPackageName m.2.2) with
    | some p => acc + p.1
    | none => acc) 0

/-- Per-import heavy-dependency findings (every table entry carries an
alternative, so the message's alternative arm is always taken). -/
def heavyDepDiags (text : Str) : List Diagnostic :=
  (importMatches text).flatMap (fun m =>
    let pkg := extractPackageName m.2.2
    match heavyLookup pkg with
    | some (sz, alt) =>
      [buildDiagnostic (rangeAt text m.1 (m.1 + m.2.1))
        ("Heavy dependency: " ++ String.mk pkg ++ " (~" ++ toString sz ++
          "KB). Consider " ++ alt)
        "WRS_HEAVY_DEPENDENCY" .information]
    | none => [])

/-- Bundle-size tiers (additive). -/
def bundleDiags (text : Str) : List Diagnostic :=
  let tot := totalEstimatedBundleSize text
  (if 500 < tot then
    [buildDiagnostic docStartRange
      ("Estimated JS bundle size: ~" ++ toString tot ++
        "KB from heavy dependencies. Google WRS recommends < 1MB total. Consider code splitting.")
      "WRS_JS_BUNDLE_SIZE_WARNING" .warning]
   else []) ++
  (if 1000 < tot then
    [buildDiagnostic docStartRange
      ("Estimated JS bundle size: ~" ++ toString tot ++
        "KB - exceeds Google WRS 1MB recommendation. This will impact crawl budget and rendering.")
      "WRS_JS_BUNDLE_SIZE_EXCEEDED" .error]
   else [])

/-- Per-script blocking-resource warnings. -/
def scriptDiags (text : Str) : List Diagnostic :=
  (scriptMatches text).flatMap (fun m =>
    let tag := (text.drop m.1).take m.2.1
    if !(hasWordBoth (L "async") tag || hasWordBoth (L "defer") tag) then
      [buildDiagnostic (rangeAt text m.1 (m.1 + m.2.1))
        "Script tag without `async` or `defer`. This can block rendering."
        "PERF_SCRIPT_BLOCKING" .warning]
    else [])

/-- Third-party script budget. -/
def scriptCountDiags (text : Str) (policy : Policy) : List Diagnostic :=
  let n := (scriptMatches text).length
  if policy.maxThirdPartyScriptsPerPage < n then
    [buildDiagnostic docStartRange
      ("Document contains " ++ toString n ++ " script tags. Budget is " ++
        toString policy.maxThirdPartyScriptsPerPage ++ ".")
      "PERF_SCRIPT_COUNT_EXCEEDED" .warning]
  else []

/-- Preconnect resource-hint recommendation. -/
def preconnectDiags (text : Str) : List Diagnostic :=
  let ds := externalDomains text
  if 0 < ds.length && !hasPreconnect text then
    [buildDiagnostic docStartRange
      ("Consider adding <link rel=\"preconnect\"> for external domains: " ++
        String.intercalate ", " ((ds.take 3).map String.mk) ++
        ". This reduces DNS/TLS overhead.")
      "PERF_PRECONNECT_MISSING" .information]
  else []

/-- The engine entry point (§6 `scan`): the ordered diagnostic sequence
of every detector, in the source's evaluation order.  The host-side file
filter and the 500KB size gate live in `scanDocument`, not here. -/
def scan (text fileName : Str) (policy : Policy) : List Diagnostic :=
  titleDiags text fileName policy ++
  metaDescDiags text policy ++
  canonicalDiags text policy ++
  jsonLdDiags text fileName policy ++
  ogDiags text ++
  htmlSizeDiags text ++
  domSizeDiags text ++
  domDepthDiags text ++
  headOrderDiags text ++
  imgDiags text ++
  nextImageDiags text ++
  fontDiags text ++
  preloadDiags text ++
  heavyDepDiags text ++
  bundleDiags text ++
  scriptDiags text ++
  scriptCountDiags text policy ++
  preconnectDiags text

/-- The source's `scanDocument`, host gates included: unsupported file
names and documents over the 500KB ceiling produce no diagnostics. -/
def scanDocument (text fileName : Str) (policy : Policy) : List Diagnostic :=
  if !isSupportedFile fileName then []
  else if 512000 < byteLength text then []
  else scan text fileName policy

/-! ## The policy resolver over dynamic JSON values

`readPolicy` returns whatever `JSON.parse` produced (or an empty object
on absence / parse failure); the individual fields are then resolved at
their use sites with optional chaining and nullish coalescing.  A dynamic
value model captures what happens to malformed field types. -/

/-- A parsed JSON value (JavaScript dynamic value). -/
inductive JSVal where
  | jnull
  | jbool (b : Bool)
  | jnum (n : Int)
  | jstr (s : String)
  | jarr (xs : List JSVal)
  | jobj (fields : List (String × JSVal))
deriving BEq, Repr

/-- Property access on a dynamic value: objects look the key up, every
other shape (and a missing key) yields `undefined`, modelled as `none`. -/
def getField : JSVal → String → Option JSVal
  | .jobj fields, k => (fields.find? (fun f => f.1 == k)).map (fun f => f.2)
  | _, _ => none

/-- `root.SEC?.FIELD`: the optional chain yields `undefined` when the
section is absent or `null`, else accesses the field. -/
def optMember (root : JSVal) (sec field : String) : Option JSVal :=
  match getField root sec with
  | none => none
  | some .jnull => none
  | some v => getField v field

/-- `v ?? dflt`: nullish coalescing falls back exactly on `undefined`
and `null`. -/
def nullish (v : Option JSVal) (dflt : JSVal) : JSVal :=
  match v with
  | none => dflt
  | some .jnull => dflt
  | some x => x

/-- `readPolicy()`: the parse result, or an empty object when the policy
file is absent or unparsable (the caught branch). -/
def readPolicy (raw : Option JSVal) : JSVal := raw.getD (.jobj [])

/-- `policy.seo?.titleMin ?? 30` at its use site. -/
def resolvedTitleMin (raw : Option JSVal) : JSVal :=
  nullish (optMember (readPolicy raw) "seo" "titleMin") (.jnum 30)

/-- `policy.seo?.titleMax ?? 60`. -/
def resolvedTitleMax (raw : Option JSVal) : JSVal :=
  nullish (optMember (readPolicy raw) "seo" "titleMax") (.jnum 60)

/-- `policy.seo?.metaDescriptionMin ?? 50`. -/
def resolvedMetaDescriptionMin (raw : Option JSVal) : JSVal :=
  nullish (optMember (readPolicy raw) "seo" "metaDescriptionMin") (.jnum 50)

/-- `policy.seo?.metaDescriptionMax ?? 160`. -/
def resolvedMetaDescriptionMax (raw : Option JSVal) : JSVal :=
  nullish (optMember (readPolicy raw) "seo" "metaDescriptionMax") (.jnum 160)

/-- `policy.perf?.maxThirdPartyScriptsPerPage ?? 6` (the secondary
fallback is the workspace configuration's default, 6, modelled for an
unconfigured workspace). -/
def resolvedMaxThirdPartyScriptsPerPage (raw : Option JSVal) : JSVal :=
  nullish (optMember (readPolicy raw) "perf" "maxThirdPartyScriptsPerPage") (.jnum 6)

/-- `policy.seo?.requireCanonical ?? true` (workspace default `true`). -/
def resolvedRequireCanonical (raw : Option JSVal) : JSVal :=
  nullish (optMember (readPolicy raw) "seo" "requireCanonical") (.jbool true)

/-- `policy.seo?.requireJsonLdFor ?? []`. -/
def resolvedRequireJsonLdFor (raw : Option JSVal) : JSVal :=
  nullish (optMember (readPolicy raw) "seo" "requireJsonLdFor") (.jarr [])

/-! ## Counting diagnostics by rule code -/

/-- How many diagnostics of the sequence carry the given rule code. -/
def countCode (c : String) (l : List Diagnostic) : Nat :=
  l.countP (fun d => d.code == c)

/-- Is a diagnostic with the given rule code present? -/
def hasCode (c : String) (l : List Diagnostic) : Bool :=
  l.any (fun d => d.code == c)

/-! ## Which rule codes each detector can emit -/

theorem countCode_append (c : String) (a b : List Diagnostic) :
    countCode c (a ++ b) = countCode c a + countCode c b := by
  simp [countCode, List.countP_append]

theorem countCode_eq_zero_of_codes {l : List Diagnostic} {S : List String}
    (h : ∀ d ∈ l, d.code ∈ S) {c : String} (hc : c ∉ S) : countCode c l = 0 := by
  simp only [countCode, List.countP_eq_zero, beq_iff_eq]
  intro d hd he
  exact hc (he ▸ h d hd)

theorem hasCode_iff_countCode_pos (c : String) (l : List Diagnostic) :
    hasCode c l = true ↔ 0 < countCode c l := by
  simp [hasCode, countCode, List.any_eq_true, List.countP_pos]

theorem titleDiags_codes (t f : Str) (p : Policy) :
    ∀ d ∈ titleDiags t f p, d.code ∈ ["SEO_TITLE_LENGTH", "SEO_TITLE_MISSING"] := by
  intro d hd
  unfold titleDiags at hd
  repeat' split at hd
  all_goals simp_all [buildDiagnostic]

theorem metaDescDiags_codes (t : Str) (p : Policy) :
    ∀ d ∈ metaDescDiags t p, d.code ∈ ["SEO_META_DESC_LENGTH", "SEO_META_DESC_MISSING"] := by
  intro d hd
  unfold metaDescDiags at hd
  repeat' split at hd
  all_goals simp_all [buildDiagnostic]

theorem canonicalDiags_codes (t : Str) (p : Policy) :
    ∀ d ∈ canonicalDiags t p, d.code ∈ ["SEO_CANONICAL_MISSING"] := by
  intro d hd
  unfold canonicalDiags at hd
  repeat' split at hd
  all_goals simp_all [buildDiagnostic]

theorem jsonLdDiags_codes (t f : Str) (p : Policy) :
    ∀ d ∈ jsonLdDiags t f p,
      d.code ∈ ["SEO_JSONLD_PRODUCT_MISSING", "SEO_JSONLD_ARTICLE_MISSING"] := by
  intro d hd
  unfold jsonLdDiags at hd
  repeat' split at hd
  all_goals simp_all [buildDiagnostic]
  rcases hd with h | h <;> (repeat' split at h) <;> simp_all [buildDiagnostic]

theorem ogDiags_codes (t : Str) :
    ∀ d ∈ ogDiags t, d.code ∈ ["SEO_OG_TAGS_MISSING"] := by
  intro d hd
  unfold ogDiags at hd
  repeat' split at hd
  all_goals simp_all [buildDiagnostic]

theorem htmlSizeDiags_codes (t : Str) :
    ∀ d ∈ htmlSizeDiags t,
      d.code ∈ ["PERF_HTML_SIZE_LARGE", "PERF_HTML_SIZE_EXCESSIVE",
        "WRS_HTML_SIZE_APPROACHING_LIMIT", "WRS_HTML_SIZE_CRITICAL"] := by
  intro d hd
  unfold htmlSizeDiags at hd
  simp only [List.mem_append] at hd
  rcases hd with h | h <;> (repeat' split at h) <;> simp_all [buildDiagnostic]

theorem domSizeDiags_codes (t : Str) :
    ∀ d ∈ domSizeDiags t, d.code ∈ ["WRS_DOM_SIZE_WARNING", "WRS_DOM_SIZE_EXCEEDED"] := by
  intro d hd
  unfold domSizeDiags at hd
  simp only [List.mem_append] at hd
  rcases hd with h | h <;> (repeat' split at h) <;> simp_all [buildDiagnostic]

theorem domDepthDiags_codes (t : Str) :
    ∀ d ∈ domDepthDiags t, d.code ∈ ["WRS_DOM_DEPTH_WARNING", "WRS_DOM_DEPTH_EXCEEDED"] := by
  intro d hd
  unfold domDepthDiags at hd
  simp only [List.mem_append] at hd
  rcases hd with h | h <;> (repeat' split at h) <;> simp_all [buildDiagnostic]

theorem headOrderDiags_codes (t : Str) :
    ∀ d ∈ headOrderDiags t,
      d.code ∈ ["SEO_CHARSET_ORDERING", "SEO_TITLE_ORDERING", "SEO_TITLE_SCRIPT_ORDERING"] := by
  intro d hd
  unfold headOrderDiags at hd
  split at hd
  · simp at hd
  · simp only [List.mem_append] at hd
    rcases hd with (h | h) | h <;> (repeat' split at h) <;> simp_all [buildDiagnostic]

theorem imgDiags_codes (t : Str) :
    ∀ d ∈ imgDiags t,
      d.code ∈ ["SEO_IMG_ALT_MISSING", "PERF_IMG_DIMENSIONS_MISSING",
        "PERF_IMG_LOADING_MISSING"] := by
  intro d hd
  unfold imgDiags at hd
  simp only [List.mem_flatMap, List.mem_append] at hd
  obtain ⟨m, -, hm⟩ := hd
  rcases hm with (h | h) | h <;> (repeat' split at h) <;> simp_all [buildDiagnostic]

theorem nextImageDiags_codes (t : Str) :
    ∀ d ∈ nextImageDiags t,
      d.code ∈ ["PERF_NEXTIMG_SIZES_MISSING", "PERF_NEXTIMG_PRIORITY_MISSING"] := by
  intro d hd
  unfold nextImageDiags at hd
  simp only [List.mem_flatMap, List.mem_append] at hd
  obtain ⟨m, -, hm⟩ := hd
  rcases hm with h | h <;> (repeat' split at h) <;> simp_all [buildDiagnostic]

theorem fontDiags_codes (t : Str) :
    ∀ d ∈ fontDiags t, d.code ∈ ["PERF_FONT_DISPLAY_MISSING"] := by
  intro d hd
  unfold fontDiags at hd
  simp only [List.mem_flatMap] at hd
  obtain ⟨m, -, hm⟩ := hd
  repeat' split at hm
  all_goals simp_all [buildDiagnostic]

theorem preloadDiags_codes (t : Str) :
    ∀ d ∈ preloadDiags t, d.code ∈ ["PERF_FONT_PRELOAD_EXCESS"] := by
  intro d hd
  unfold preloadDiags at hd
  repeat' split at hd
  all_goals simp_all [buildDiagnostic]

theorem heavyDepDiags_codes (t : Str) :
    ∀ d ∈ heavyDepDiags t, d.code ∈ ["WRS_HEAVY_DEPENDENCY"] := by
  intro d hd
  unfold heavyDepDiags at hd
  simp only [List.mem_flatMap] at hd
  obtain ⟨m, -, hm⟩ := hd
  repeat' split at hm
  all_goals simp_all [buildDiagnostic]

theorem bundleDiags_codes (t : Str) :
    ∀ d ∈ bundleDiags t,
      d.code ∈ ["WRS_JS_BUNDLE_SIZE_WARNING", "WRS_JS_BUNDLE_SIZE_EXCEEDED"] := by
  intro d hd
  unfold bundleDiags at hd
  simp only [List.mem_append] at hd
  rcases hd with h | h <;> (repeat' split at h) <;> simp_all [buildDiagnostic]

theorem scriptDiags_codes (t : Str) :
    ∀ d ∈ scriptDiags t, d.code ∈ ["PERF_SCRIPT_BLOCKING"] := by
  intro d hd
  unfold scriptDiags at hd
  simp only [List.mem_flatMap] at hd
  obtain ⟨m, -, hm⟩ := hd
  repeat' split at hm
  all_goals simp_all [buildDiagnostic]

theorem scriptCountDiags_codes (t : Str) (p : Policy) :
    ∀ d ∈ scriptCountDiags t p, d.code ∈ ["PERF_SCRIPT_COUNT_EXCEEDED"] := by
  intro d hd
  unfold scriptCountDiags at hd
  repeat' split at hd
  all_goals simp_all [buildDiagnostic]

theorem preconnectDiags_codes (t : Str) :
    ∀ d ∈ preconnectDiags t, d.code ∈ ["PERF_PRECONNECT_MISSING"] := by
  intro d hd
  unfold preconnectDiags at hd
  repeat' split at hd
  all_goals simp_all [buildDiagnostic]

/-- `countCode` distributes over the scan's detector concatenation. -/
theorem countCode_scan (c : String) (t f : Str) (p : Policy) :
    countCode c (scan t f p) =
      countCode c (titleDiags t f p) + countCode c (metaDescDiags t p) +
      countCode c (canonicalDiags t p) + countCode c (jsonLdDiags t f p) +
      countCode c (ogDiags t) + countCode c (htmlSizeDiags t) +
      countCode c (domSizeDiags t) + countCode c (domDepthDiags t) +
      countCode c (headOrderDiags t) + countCode c (imgDiags t) +
      countCode c (nextImageDiags t) + countCode c (fontDiags t) +
      countCode c (preloadDiags t) + countCode c (heavyDepDiags t) +
      countCode c (bundleDiags t) + countCode c (scriptDiags t) +
      countCode c (scriptCountDiags t p) + countCode c (preconnectDiags t) := by
  simp only [scan, countCode_append]

/-- A code only the payload-size detector can emit is counted there. -/
theorem count_scan_html (t f : Str) (p : Policy) (c : String)
    (hc : c = "PERF_HTML_SIZE_LARGE" ∨ c = "PERF_HTML_SIZE_EXCESSIVE" ∨
      c = "WRS_HTML_SIZE_APPROACHING_LIMIT" ∨ c = "WRS_HTML_SIZE_CRITICAL") :
    countCode c (scan t f p) = countCode c (htmlSizeDiags t) := by
  rcases hc with rfl | rfl | rfl | rfl <;>
  · rw [countCode_scan,
      countCode_eq_zero_of_codes (titleDiags_codes t f p) (by decide),
      countCode_eq_zero_of_codes (metaDescDiags_codes t p) (by decide),
      countCode_eq_zero_of_codes (canonicalDiags_codes t p) (by decide),
      countCode_eq_zero_of_codes (jsonLdDiags_codes t f p) (by decide),
      countCode_eq_zero_of_codes (ogDiags_codes t) (by decide),
      countCode_eq_zero_of_codes (domSizeDiags_codes t) (by decide),
      countCode_eq_zero_of_codes (domDepthDiags_codes t) (by decide),
      countCode_eq_zero_of_codes (headOrderDiags_codes t) (by decide),
      countCode_eq_zero_of_codes (imgDiags_codes t) (by decide),
      countCode_eq_zero_of_codes (nextImageDiags_codes t) (by decide),
      countCode_eq_zero_of_codes (fontDiags_codes t) (by decide),
      countCode_eq_zero_of_codes (preloadDiags_codes t) (by decide),
      countCode_eq_zero_of_codes (heavyDepDiags_codes t) (by decide),
      countCode_eq_zero_of_codes (bundleDiags_codes t) (by decide),
      countCode_eq_zero_of_codes (scriptDiags_codes t) (by decide),
      countCode_eq_zero_of_codes (scriptCountDiags_codes t p) (by decide),
      countCode_eq_zero_of_codes (preconnectDiags_codes t) (by decide)]
    omega

/-- C1: for every document over the critical byte threshold the scan
emits both the approaching-limit warning and the critical error; and the
three lower payload-size bands are mutually exclusive. -/
theorem C1_payload_tiers_additive (t f : Str) (p : Policy) :
    (14336000 < byteLength t →
      countCode "WRS_HTML_SIZE_APPROACHING_LIMIT" (scan t f p) = 1 ∧
      countCode "WRS_HTML_SIZE_CRITICAL" (scan t f p) = 1) ∧
    countCode "PERF_HTML_SIZE_LARGE" (scan t f p) +
      countCode "PERF_HTML_SIZE_EXCESSIVE" (scan t f p) +
      countCode "WRS_HTML_SIZE_APPROACHING_LIMIT" (scan t f p) ≤ 1 := by
  constructor
  · intro h
    rw [count_scan_html t f p _ (by tauto), count_scan_html t f p _ (by tauto)]
    unfold htmlSizeDiags
    rw [countCode_append, countCode_append]
    constructor <;>
    · repeat' split
      all_goals simp_all [countCode, buildDiagnostic]
      all_goals omega
  · rw [count_scan_html t f p _ (by tauto), count_scan_html t f p _ (by tauto),
      count_scan_html t f p _ (by tauto)]
    unfold htmlSizeDiags
    rw [countCode_append, countCode_append, countCode_append]
    repeat' split
    all_goals simp_all [countCode, buildDiagnostic]

theorem byteLength_replicate (n : Nat) (c : Char) :
    byteLength (List.replicate n c) = n * c.utf8Size := by
  simp [byteLength, List.map_replicate, List.sum_replicate, smul_eq_mul]

/-- Witness for C1 at a concrete 14.4-million-byte document. -/
theorem C1_payload_tiers_additive_witness :
    14336000 < byteLength (List.replicate 14400000 'a') ∧
    countCode "WRS_HTML_SIZE_APPROACHING_LIMIT"
      (scan (List.replicate 14400000 'a') (L "a.html") defaultPolicy) = 1 ∧
    countCode "WRS_HTML_SIZE_CRITICAL"
      (scan (List.replicate 14400000 'a') (L "a.html") defaultPolicy) = 1 := by
  have hb : 14336000 < byteLength (List.replicate 14400000 'a') := by
    rw [byteLength_replicate]
    have h1 : ('a').utf8Size = 1 := by decide
    rw [h1]
    omega
  exact ⟨hb, (C1_payload_tiers_additive (List.replicate 14400000 'a')
    (L "a.html") defaultPolicy).1 hb⟩

/-! ## Counting diagnostics by code and severity -/

/-- How many diagnostics carry both the given code and severity. -/
def countCodeSev (c : String) (sev : Severity) (l : List Diagnostic) : Nat :=
  l.countP (fun d => d.code == c && decide (d.severity = sev))

theorem countCodeSev_append (c : String) (sev : Severity) (a b : List Diagnostic) :
    countCodeSev c sev (a ++ b) = countCodeSev c sev a + countCodeSev c sev b := by
  simp [countCodeSev, List.countP_append]

theorem countCodeSev_eq_zero_of_codes {l : List Diagnostic} {S : List String}
    (h : ∀ d ∈ l, d.code ∈ S) {c : String} (hc : c ∉ S) (sev : Severity) :
    countCodeSev c sev l = 0 := by
  simp only [countCodeSev, List.countP_eq_zero, Bool.and_eq_true, beq_iff_eq]
  intro d hd he
  exact absurd (he.1 ▸ h d hd) hc

/-- `countCodeSev` distributes over the scan's detector concatenation. -/
theorem countCodeSev_scan (c : String) (sev : Severity) (t f : Str) (p : Policy) :
    countCodeSev c sev (scan t f p) =
      countCodeSev c sev (titleDiags t f p) + countCodeSev c sev (metaDescDiags t p) +
      countCodeSev c sev (canonicalDiags t p) + countCodeSev c sev (jsonLdDiags t f p) +
      countCodeSev c sev (ogDiags t) + countCodeSev c sev (htmlSizeDiags t) +
      countCodeSev c sev (domSizeDiags t) + countCodeSev c sev (domDepthDiags t) +
      countCodeSev c sev (headOrderDiags t) + countCodeSev c sev (imgDiags t) +
      countCodeSev c sev (nextImageDiags t) + countCodeSev c sev (fontDiags t) +
      countCodeSev c sev (preloadDiags t) + countCodeSev c sev (heavyDepDiags t) +
      countCodeSev c sev (bundleDiags t) + countCodeSev c sev (scriptDiags t) +
      countCodeSev c sev (scriptCountDiags t p) + countCodeSev c sev (preconnectDiags t) := by
  simp only [scan, countCodeSev_append]

/-- The title-length and title-missing codes are counted in the title
detector alone. -/
theorem count_scan_title (t f : Str) (p : Policy) (c : String)
    (hc : c = "SEO_TITLE_LENGTH" ∨ c = "SEO_TITLE_MISSING") :
    countCode c (scan t f p) = countCode c (titleDiags t f p) := by
  rcases hc with rfl | rfl <;>
  · rw [countCode_scan,
      countCode_eq_zero_of_codes (metaDescDiags_codes t p) (by decide),
      countCode_eq_zero_of_codes (canonicalDiags_codes t p) (by decide),
      countCode_eq_zero_of_codes (jsonLdDiags_codes t f p) (by decide),
      countCode_eq_zero_of_codes (ogDiags_codes t) (by decide),
      countCode_eq_zero_of_codes (htmlSizeDiags_codes t) (by decide),
      countCode_eq_zero_of_codes (domSizeDiags_codes t) (by decide),
      countCode_eq_zero_of_codes (domDepthDiags_codes t) (by decide),
      countCode_eq_zero_of_codes (headOrderDiags_codes t) (by decide),
      countCode_eq_zero_of_codes (imgDiags_codes t) (by decide),
      countCode_eq_zero_of_codes (nextImageDiags_codes t) (by decide),
      countCode_eq_zero_of_codes (fontDiags_codes t) (by decide),
      countCode_eq_zero_of_codes (preloadDiags_codes t) (by decide),
      countCode_eq_zero_of_codes (heavyDepDiags_codes t) (by decide),
      countCode_eq_zero_of_codes (bundleDiags_codes t) (by decide),
      countCode_eq_zero_of_codes (scriptDiags_codes t) (by decide),
      countCode_eq_zero_of_codes (scriptCountDiags_codes t p) (by decide),
      countCode_eq_zero_of_codes (preconnectDiags_codes t) (by decide)]
    omega

/-- Severity-refined version of `count_scan_title`. -/
theorem countSev_scan_title (t f : Str) (p : Policy) (c : String) (sev : Severity)
    (hc : c = "SEO_TITLE_LENGTH" ∨ c = "SEO_TITLE_MISSING") :
    countCodeSev c sev (scan t f p) = countCodeSev c sev (titleDiags t f p) := by
  rcases hc with rfl | rfl <;>
  · rw [countCodeSev_scan,
      countCodeSev_eq_zero_of_codes (metaDescDiags_codes t p) (by decide),
      countCodeSev_eq_zero_of_codes (canonicalDiags_codes t p) (by decide),
      countCodeSev_eq_zero_of_codes (jsonLdDiags_codes t f p) (by decide),
      countCodeSev_eq_zero_of_codes (ogDiags_codes t) (by decide),
      countCodeSev_eq_zero_of_codes (htmlSizeDiags_codes t) (by decide),
      countCodeSev_eq_zero_of_codes (domSizeDiags_codes t) (by decide),
      countCodeSev_eq_zero_of_codes (domDepthDiags_codes t) (by decide),
      countCodeSev_eq_zero_of_codes (headOrderDiags_codes t) (by decide),
      countCodeSev_eq_zero_of_codes (imgDiags_codes t) (by decide),
      countCodeSev_eq_zero_of_codes (nextImageDiags_codes t) (by decide),
      countCodeSev_eq_zero_of_codes (fontDiags_codes t) (by decide),
      countCodeSev_eq_zero_of_codes (preloadDiags_codes t) (by decide),
      countCodeSev_eq_zero_of_codes (heavyDepDiags_codes t) (by decide),
      countCodeSev_eq_zero_of_codes (bundleDiags_codes t) (by decide),
      countCodeSev_eq_zero_of_codes (scriptDiags_codes t) (by decide),
      countCodeSev_eq_zero_of_codes (scriptCountDiags_codes t p) (by decide),
      countCodeSev_eq_zero_of_codes (preconnectDiags_codes t) (by decide)]
    omega

/-- C2: with a title element present, a trimmed title of exactly
`titleMin` or `titleMax` characters yields no length finding, while
`titleMin - 1` or `titleMax + 1` characters yield exactly one
`SEO_TITLE_LENGTH` warning. -/
theorem C2_title_length_inclusive (t f : Str) (p : Policy)
    (idx len : Nat) (content : Str)
    (ht : titleExec t = some (idx, len, content))
    (hminmax : p.titleMin ≤ p.titleMax) :
    (((jsTrim content).length = p.titleMin ∨ (jsTrim content).length = p.titleMax) →
      countCode "SEO_TITLE_LENGTH" (scan t f p) = 0) ∧
    (((1 ≤ p.titleMin ∧ (jsTrim content).length = p.titleMin - 1) ∨
      (jsTrim content).length = p.titleMax + 1) →
      countCodeSev "SEO_TITLE_LENGTH" Severity.warning (scan t f p) = 1) := by
  constructor
  · intro hl
    rw [count_scan_title t f p _ (by tauto)]
    simp only [titleDiags, ht]
    have hw : within (jsTrim content).length p.titleMin p.titleMax = true := by
      rcases hl with h | h <;> simp [within, h] <;> omega
    simp [hw, countCode]
  · intro hl
    rw [countSev_scan_title t f p _ _ (by tauto)]
    simp only [titleDiags, ht]
    have hw : within (jsTrim content).length p.titleMin p.titleMax = false := by
      rcases hl with ⟨h1, h⟩ | h <;> simp [within, h] <;> omega
    simp [hw, countCodeSev, buildDiagnostic]

/-- Witness for C2 at a concrete document whose title trims to exactly
the default `titleMin` of 30 characters. -/
theorem C2_title_length_inclusive_witness :
    titleExec (L "<head><title>012345678901234567890123456789</title></head>") =
      some (6, 45, L "012345678901234567890123456789") ∧
    countCode "SEO_TITLE_LENGTH"
      (scan (L "<head><title>012345678901234567890123456789</title></head>")
        (L "a.html") defaultPolicy) = 0 := by
  refine ⟨by decide, ?_⟩
  exact (C2_title_length_inclusive
    (L "<head><title>012345678901234567890123456789</title></head>")
    (L "a.html") defaultPolicy 6 45 (L "012345678901234567890123456789")
    (by decide) (by decide)).1 (Or.inl (by decide))

/-! ## The depth tracker -/

theorem depthStep_nonneg (st : Int × Int) (tag : Tag) (h : 0 ≤ st.2) :
    0 ≤ (depthStep st tag).2 := by
  unfold depthStep
  repeat' split
  all_goals simp_all
  omega

theorem scanl_depth_nonneg (tags : List Tag) :
    ∀ st : Int × Int, 0 ≤ st.2 → ∀ x ∈ List.scanl depthStep st tags, 0 ≤ x.2 := by
  induction tags with
  | nil => intro st h x hx; simp [List.scanl] at hx; subst hx; exact h
  | cons tg rest ih =>
    intro st h x hx
    simp only [List.scanl, List.mem_cons] at hx
    rcases hx with rfl | hx
    · exact h
    · exact ih (depthStep st tg) (depthStep_nonneg st tg h) x hx

/-- A single non-void opening tag for the nested-document family. -/
def nestedTag (name : Str) : Str := '<' :: name ++ ['>']

/-- A document of `n` opening tags and nothing else. -/
def nestedDoc (n : Nat) (name : Str) : Str := (List.replicate n (nestedTag name)).flatten

theorem takeWhile_all_append {p : Char → Bool} {xs ys : List Char}
    (h : ∀ x ∈ xs, p x = true) :
    (xs ++ ys).takeWhile p = xs ++ ys.takeWhile p := by
  induction xs with
  | nil => simp
  | cons a l ih =>
    have ha := h a (by simp)
    have ih2 := ih (fun x hx => h x (by simp [hx]))
    simp [List.takeWhile_cons, ha, ih2]

theorem dropWhile_all_append {p : Char → Bool} {xs ys : List Char}
    (h : ∀ x ∈ xs, p x = true) :
    (xs ++ ys).dropWhile p = ys.dropWhile p := by
  induction xs with
  | nil => simp
  | cons a l ih =>
    have ha := h a (by simp)
    have ih2 := ih (fun x hx => h x (by simp [hx]))
    simp [List.dropWhile_cons, ha, ih2]

theorem tagMatchAt_open (c : Char) (rest s : Str)
    (hc : isAsciiLetter c = true) (hr : ∀ x ∈ rest, isTagChar x = true) :
    tagMatchAt ('<' :: c :: (rest ++ '>' :: s)) =
      some (rest.length + 3, ⟨false, (c :: rest).map Char.toLower, false⟩) := by
  have hcs : (c == '/') = false := by
    cases hq : c == '/'
    · rfl
    · exfalso; rw [beq_iff_eq] at hq; subst hq; simp [isAsciiLetter] at hc
  have htw : (rest ++ '>' :: s).takeWhile isTagChar = rest := by
    rw [takeWhile_all_append hr, List.takeWhile_cons]
    simp [show isTagChar '>' = false from by decide]
  have hdw : (rest ++ '>' :: s).dropWhile isTagChar = '>' :: s := by
    rw [dropWhile_all_append hr, List.dropWhile_cons]
    simp [show isTagChar '>' = false from by decide]
  simp [tagMatchAt, hcs, hc, htw, hdw, slashLast, List.length_append]
  omega

theorem findAllAux_skip (m : Str → Option (Nat × α)) :
    ∀ (s : Str) (i skip : Nat),
      findAllAux m s i skip = findAllAux m (s.drop skip) (i + skip) 0 := by
  intro s
  induction s with
  | nil => intro i skip; simp [findAllAux]
  | cons c rest ih =>
    intro i skip
    cases skip with
    | zero => simp
    | succ k =>
      simp only [findAllAux, List.drop_succ_cons]
      rw [ih (i + 1) k]
      congr 1
      omega

theorem findAllAux_payload (m : Str → Option (Nat × α)) (g : Nat × α → β) :
    ∀ (s : Str) (i j skip : Nat),
      (findAllAux m s i skip).map (fun x => g x.2) =
      (findAllAux m s j skip).map (fun x => g x.2) := by
  intro s
  induction s with
  | nil => intro i j skip; simp [findAllAux]
  | cons c rest ih =>
    intro i j skip
    cases skip with
    | zero =>
      simp only [findAllAux]
      cases hm : m (c :: rest) with
      | none => simp only [hm]; exact ih (i + 1) (j + 1) 0
      | some p =>
        obtain ⟨len, a⟩ := p
        simp only [hm, List.map_cons]
        rw [ih (i + 1) (j + 1) (len - 1)]
    | succ k => exact ih (i + 1) (j + 1) k

theorem docTags_cons_of_match {s : Str} {len : Nat} {tg : Tag} {c : Char} {rest : Str}
    (hs : s = c :: rest) (hm : tagMatchAt s = some (len, tg)) (h1 : 1 ≤ len) :
    docTags s = tg :: docTags (s.drop len) := by
  subst hs
  unfold docTags findAll
  simp only [findAllAux, hm, List.map_cons]
  refine congrArg (List.cons tg) ?_
  rw [findAllAux_skip tagMatchAt rest (0 + 1) (len - 1)]
  have hdrop : rest.drop (len - 1) = (c :: rest).drop len := by
    cases len with
    | zero => omega
    | succ k => simp
  rw [hdrop, show 0 + 1 + (len - 1) = len from by omega]
  exact findAllAux_payload tagMatchAt (fun y => y.2) ((c :: rest).drop len) len 0 0

/-- A syntactically well-formed tag name: a letter followed by
alphanumeric characters. -/
def isOpenName (nm : Str) : Bool :=
  match nm with
  | [] => false
  | c :: rest => isAsciiLetter c && rest.all isTagChar

/-- A document of properly nested opening tags (one per name, in order)
and nothing else. -/
def nestedDocL (names : List Str) : Str := (names.map nestedTag).flatten

theorem docTags_nestedDocL (names : List Str)
    (h : ∀ nm ∈ names, isOpenName nm = true) :
    docTags (nestedDocL names) =
      names.map (fun nm => ⟨false, nm.map Char.toLower, false⟩) := by
  induction names with
  | nil => simp [nestedDocL, docTags, findAll, findAllAux]
  | cons nm rest ih =>
    obtain ⟨c, nmr, rfl⟩ : ∃ c r, nm = c :: r := by
      cases nm with
      | nil => exact absurd (h [] (by simp)) (by simp [isOpenName])
      | cons c r => exact ⟨c, r, rfl⟩
    have hcm := h (c :: nmr) (by simp)
    simp only [isOpenName, Bool.and_eq_true, List.all_eq_true] at hcm
    have hd : nestedDocL ((c :: nmr) :: rest) =
        '<' :: c :: (nmr ++ '>' :: nestedDocL rest) := by
      simp [nestedDocL, nestedTag]
    rw [hd, docTags_cons_of_match rfl
      (tagMatchAt_open c nmr (nestedDocL rest) hcm.1 hcm.2) (by omega)]
    have hdrop : ('<' :: c :: (nmr ++ '>' :: nestedDocL rest)).drop (nmr.length + 3) =
        nestedDocL rest := by
      simp only [List.drop_succ_cons, show nmr.length + 3 = nmr.length + 1 + 1 + 1 by omega]
      rw [show nmr.length + 1 = (nmr ++ ['>']).length by simp]
      rw [show nmr ++ '>' :: nestedDocL rest = (nmr ++ ['>']) ++ nestedDocL rest by simp]
      exact List.drop_left (nmr ++ ['>']) (nestedDocL rest)
    rw [hdrop, ih (fun x hx => h x (by simp [hx]))]
    simp

theorem foldl_depthStep_opens (tags : List Tag)
    (h : ∀ tg ∈ tags, isVoidTag tg.name = false ∧ tg.slashEnd = false ∧
      tg.closing = false) :
    ∀ m : Int, tags.foldl depthStep (m, m) = (m + tags.length, m + tags.length) := by
  induction tags with
  | nil => intro m; simp
  | cons tg rest ih =>
    intro m
    obtain ⟨hv, hs, hcl⟩ := h tg (by simp)
    rw [List.foldl_cons]
    have hstep : depthStep (m, m) tg = (m + 1, m + 1) := by
      unfold depthStep
      rw [if_neg (by simp [hv, hs]), if_neg (by simp [hcl])]
      simp [max_eq_right (by omega : m ≤ m + 1)]
    rw [hstep, ih (fun x hx => h x (by simp [hx])) (m + 1)]
    simp only [Prod.mk.injEq, List.length_cons]
    constructor <;> (push_cast; omega)

/-- C3: the depth tracker's running counter is never negative at any
point of its pass, whatever the tag balance; and a document of `N`
properly nested non-void opening tags (and no closing tags at all)
yields a maximum depth of exactly `N`. -/
theorem C3_depth_tracker (html : Str) (names : List Str)
    (hn : ∀ nm ∈ names, isOpenName nm = true)
    (hv : ∀ nm ∈ names, isVoidTag (nm.map Char.toLower) = false) :
    (∀ st ∈ depthTrace html, 0 ≤ st.2) ∧
    calculateMaxDOMDepth (nestedDocL names) = names.length := by
  constructor
  · exact scanl_depth_nonneg (docTags html) (0, 0) (by omega)
  · unfold calculateMaxDOMDepth
    rw [docTags_nestedDocL names hn]
    rw [foldl_depthStep_opens _ (by
      intro tg htg
      simp only [List.mem_map] at htg
      obtain ⟨nm, hnm, rfl⟩ := htg
      exact ⟨hv nm hnm, rfl, rfl⟩) 0]
    simp

/-- Witness for C3: an unbalanced document for the invariant, and three
distinct properly nested non-void elements for the exact-depth part. -/
theorem C3_depth_tracker_witness :
    calculateMaxDOMDepth (nestedDocL [L "html", L "body", L "div"]) = 3 := by
  exact (C3_depth_tracker (L "</p></p><a><b></a>") [L "html", L "body", L "div"]
    (by decide) (by decide)).2

/-! ## Policy resolution behaviour -/

theorem nullish_pass (v : Option JSVal) (d : JSVal) :
    (∀ x, v = some x → x ≠ .jnull → nullish v d = x) ∧
    ((v = none ∨ v = some .jnull) → nullish v d = d) := by
  constructor
  · intro x hv hx
    subst hv
    cases x <;> simp_all [nullish]
  · intro hv
    rcases hv with rfl | rfl <;> rfl

/-- C4 counterexample: a wrong-typed (string-valued) `seo.titleMin` is
passed through unchanged by the resolver instead of falling back to the
named default 30 — while the sibling field still resolves to its
default, and the same raw configuration leaves `titleMax` untouched. -/
theorem C4_wrong_type_counterexample :
    resolvedTitleMin (some (.jobj [("seo", .jobj [("titleMin", .jstr "abc")])])) =
      .jstr "abc" ∧
    JSVal.jstr "abc" ≠ JSVal.jnum 30 ∧
    resolvedTitleMax (some (.jobj [("seo", .jobj [("titleMin", .jstr "abc")])])) =
      .jnum 60 := by
  refine ⟨rfl, by simp, rfl⟩

/-- C4 (amended): each policy field independently falls back to its
named default when its configuration path is absent or `null`; a
present non-null value — of whatever type — is passed through unchanged;
and a missing or unparsable configuration resolves every field to its
default without an error. -/
theorem C4_policy_resolution (raw : Option JSVal) :
    (∀ v, optMember (readPolicy raw) "seo" "titleMin" = some v → v ≠ .jnull →
      resolvedTitleMin raw = v) ∧
    ((optMember (readPolicy raw) "seo" "titleMin" = none ∨
      optMember (readPolicy raw) "seo" "titleMin" = some .jnull) →
      resolvedTitleMin raw = .jnum 30) ∧
    (∀ v, optMember (readPolicy raw) "seo" "titleMax" = some v → v ≠ .jnull →
      resolvedTitleMax raw = v) ∧
    ((optMember (readPolicy raw) "seo" "titleMax" = none ∨
      optMember (readPolicy raw) "seo" "titleMax" = some .jnull) →
      resolvedTitleMax raw = .jnum 60) ∧
    (∀ v, optMember (readPolicy raw) "seo" "metaDescriptionMin" = some v → v ≠ .jnull →
      resolvedMetaDescriptionMin raw = v) ∧
    ((optMember (readPolicy raw) "seo" "metaDescriptionMin" = none ∨
      optMember (readPolicy raw) "seo" "metaDescriptionMin" = some .jnull) →
      resolvedMetaDescriptionMin raw = .jnum 50) ∧
    (∀ v, optMember (readPolicy raw) "seo" "metaDescriptionMax" = some v → v ≠ .jnull →
      resolvedMetaDescriptionMax raw = v) ∧
    ((optMember (readPolicy raw) "seo" "metaDescriptionMax" = none ∨
      optMember (readPolicy raw) "seo" "metaDescriptionMax" = some .jnull) →
      resolvedMetaDescriptionMax raw = .jnum 160) ∧
    (∀ v, optMember (readPolicy raw) "perf" "maxThirdPartyScriptsPerPage" = some v →
      v ≠ .jnull → resolvedMaxThirdPartyScriptsPerPage raw = v) ∧
    ((optMember (readPolicy raw) "perf" "maxThirdPartyScriptsPerPage" = none ∨
      optMember (readPolicy raw) "perf" "maxThirdPartyScriptsPerPage" = some .jnull) →
      resolvedMaxThirdPartyScriptsPerPage raw = .jnum 6) ∧
    (resolvedTitleMin none = .jnum 30 ∧ resolvedTitleMax none = .jnum 60 ∧
     resolvedMetaDescriptionMin none = .jnum 50 ∧
     resolvedMetaDescriptionMax none = .jnum 160 ∧
     resolvedMaxThirdPartyScriptsPerPage none = .jnum 6 ∧
     resolvedRequireCanonical none = .jbool true ∧
     resolvedRequireJsonLdFor none = .jarr []) :=
  ⟨(nullish_pass _ _).1, (nullish_pass _ _).2,
   (nullish_pass _ _).1, (nullish_pass _ _).2,
   (nullish_pass _ _).1, (nullish_pass _ _).2,
   (nullish_pass _ _).1, (nullish_pass _ _).2,
   (nullish_pass _ _).1, (nullish_pass _ _).2,
   rfl, rfl, rfl, rfl, rfl, rfl, rfl⟩

/-- Witness for C4 at a concrete configuration supplying one field. -/
theorem C4_policy_resolution_witness :
    resolvedTitleMin (some (.jobj [("seo", .jobj [("titleMin", .jnum 40)])])) =
      .jnum 40 ∧
    resolvedTitleMax (some (.jobj [("seo", .jobj [("titleMin", .jnum 40)])])) =
      .jnum 60 := by
  constructor
  · exact (C4_policy_resolution
      (some (.jobj [("seo", .jobj [("titleMin", .jnum 40)])]))).1
      (.jnum 40) rfl (by simp)
  · exact (C4_policy_resolution
      (some (.jobj [("seo", .jobj [("titleMin", .jnum 40)])]))).2.2.2.1
      (Or.inl rfl)

/-! ## The element counter -/

theorem letter_free_chars (c : Char) (hc : isAsciiLetter c = true) :
    (c != '/' && c != '>') = true := by
  have h1 : c ≠ '/' := fun h => by subst h; simp [isAsciiLetter] at hc
  have h2 : c ≠ '>' := fun h => by subst h; simp [isAsciiLetter] at hc
  simp [h1, h2]

theorem openTagMatchAt_open (c : Char) (rest s : Str)
    (hc : isAsciiLetter c = true)
    (hr : ∀ x ∈ rest, (x != '/' && x != '>') = true) :
    openTagMatchAt ('<' :: c :: (rest ++ '>' :: s)) = some (rest.length + 3, ()) := by
  have hdw : (c :: (rest ++ '>' :: s)).dropWhile (fun x => x != '/' && x != '>') =
      '>' :: s := by
    rw [show c :: (rest ++ '>' :: s) = (c :: rest) ++ '>' :: s by simp]
    rw [dropWhile_all_append (by
      intro x hx
      rcases List.mem_cons.mp hx with rfl | hx
      · exact letter_free_chars x hc
      · exact hr x hx)]
    simp [List.dropWhile_cons]
  simp [openTagMatchAt, hc, hdw, List.length_append]
  omega

theorem findAllAux_length (m : Str → Option (Nat × α)) (s : Str) (i j skip : Nat) :
    (findAllAux m s i skip).length = (findAllAux m s j skip).length := by
  have h := findAllAux_payload m (fun _ => ()) s i j skip
  have hi : (findAllAux m s i skip).length =
      ((findAllAux m s i skip).map (fun x => (fun _ => ()) x.2)).length := by simp
  have hj : (findAllAux m s j skip).length =
      ((findAllAux m s j skip).map (fun x => (fun _ => ()) x.2)).length := by simp
  rw [hi, hj, h]

theorem totalElements_cons_of_match {s : Str} {len : Nat} {c : Char} {rest : Str}
    (hs : s = c :: rest) (hm : openTagMatchAt s = some (len, ())) (h1 : 1 ≤ len) :
    totalElements s = 1 + totalElements (s.drop len) := by
  subst hs
  unfold totalElements findAll
  simp only [findAllAux, hm, List.length_cons]
  rw [findAllAux_skip openTagMatchAt rest (0 + 1) (len - 1)]
  have hdrop : rest.drop (len - 1) = (c :: rest).drop len := by
    cases len with
    | zero => omega
    | succ k => simp
  rw [hdrop, show 0 + 1 + (len - 1) = len from by omega]
  rw [findAllAux_length openTagMatchAt _ len 0 0]
  omega

theorem totalElements_nestedDoc (c : Char) (rest : Str)
    (hc : isAsciiLetter c = true)
    (hr : ∀ x ∈ rest, (x != '/' && x != '>') = true) :
    ∀ n, totalElements (nestedDoc n (c :: rest)) = n := by
  intro n
  induction n with
  | zero => simp [nestedDoc, totalElements, findAll, findAllAux]
  | succ n ih =>
    have hd : nestedDoc (n + 1) (c :: rest) =
        '<' :: c :: (rest ++ '>' :: nestedDoc n (c :: rest)) := by
      simp [nestedDoc, nestedTag, List.replicate_succ, List.flatten_cons]
    rw [hd]
    rw [totalElements_cons_of_match rfl
      (openTagMatchAt_open c rest (nestedDoc n (c :: rest)) hc hr) (by omega)]
    have hdrop : ('<' :: c :: (rest ++ '>' :: nestedDoc n (c :: rest))).drop (rest.length + 3) =
        nestedDoc n (c :: rest) := by
      simp only [List.drop_succ_cons, show rest.length + 3 = rest.length + 1 + 1 + 1 by omega]
      rw [show rest.length + 1 = (rest ++ ['>']).length by simp]
      rw [show rest ++ '>' :: nestedDoc n (c :: rest) =
        (rest ++ ['>']) ++ nestedDoc n (c :: rest) by simp]
      exact List.drop_left (rest ++ ['>']) (nestedDoc n (c :: rest))
    rw [hdrop, ih]
    omega

/-- C5 counterexample: the element counter counts the void elements
`<br>` and `<meta charset="UTF-8">` — the claim says they contribute 0,
the code's regex only excludes tags containing a slash. -/
theorem C5_void_element_counterexample :
    totalElements (L "<br>") = 1 ∧
    totalElements (L "<meta charset=\"UTF-8\">") = 1 := by
  constructor <;> decide

/-- A code only the DOM-size detector can emit is counted there. -/
theorem count_scan_dom (t f : Str) (p : Policy) (c : String)
    (hc : c = "WRS_DOM_SIZE_WARNING" ∨ c = "WRS_DOM_SIZE_EXCEEDED") :
    countCode c (scan t f p) = countCode c (domSizeDiags t) := by
  rcases hc with rfl | rfl <;>
  · rw [countCode_scan,
      countCode_eq_zero_of_codes (titleDiags_codes t f p) (by decide),
      countCode_eq_zero_of_codes (metaDescDiags_codes t p) (by decide),
      countCode_eq_zero_of_codes (canonicalDiags_codes t p) (by decide),
      countCode_eq_zero_of_codes (jsonLdDiags_codes t f p) (by decide),
      countCode_eq_zero_of_codes (ogDiags_codes t) (by decide),
      countCode_eq_zero_of_codes (htmlSizeDiags_codes t) (by decide),
      countCode_eq_zero_of_codes (domDepthDiags_codes t) (by decide),
      countCode_eq_zero_of_codes (headOrderDiags_codes t) (by decide),
      countCode_eq_zero_of_codes (imgDiags_codes t) (by decide),
      countCode_eq_zero_of_codes (nextImageDiags_codes t) (by decide),
      countCode_eq_zero_of_codes (fontDiags_codes t) (by decide),
      countCode_eq_zero_of_codes (preloadDiags_codes t) (by decide),
      countCode_eq_zero_of_codes (heavyDepDiags_codes t) (by decide),
      countCode_eq_zero_of_codes (bundleDiags_codes t) (by decide),
      countCode_eq_zero_of_codes (scriptDiags_codes t) (by decide),
      countCode_eq_zero_of_codes (scriptCountDiags_codes t p) (by decide),
      countCode_eq_zero_of_codes (preconnectDiags_codes t) (by decide)]
    omega

/-- C5 (amended): the element counter counts exactly the opening tags
free of any slash before their closing angle — so a self-closing `<br/>`
contributes 0 while a sequence of `n` slash-free opening tags counts
`n` — and a document whose count exceeds 1500 (such as one with 1600
such tags) yields both the informational and the error DOM-size
findings. -/
theorem C5_dom_size_amended (t f : Str) (p : Policy) (n : Nat) (c : Char) (rest : Str)
    (hc : isAsciiLetter c = true)
    (hr : ∀ x ∈ rest, (x != '/' && x != '>') = true) :
    totalElements (nestedDoc n (c :: rest)) = n ∧
    totalElements (L "<br/>") = 0 ∧
    (800 < totalElements t → countCode "WRS_DOM_SIZE_WARNING" (scan t f p) = 1) ∧
    (1500 < totalElements t →
      countCode "WRS_DOM_SIZE_WARNING" (scan t f p) = 1 ∧
      countCode "WRS_DOM_SIZE_EXCEEDED" (scan t f p) = 1) := by
  refine ⟨totalElements_nestedDoc c rest hc hr n, by decide, ?_, ?_⟩
  · intro h
    rw [count_scan_dom t f p _ (by tauto)]
    unfold domSizeDiags
    rw [countCode_append]
    repeat' split
    all_goals simp_all [countCode, buildDiagnostic]
  · intro h
    rw [count_scan_dom t f p _ (by tauto), count_scan_dom t f p _ (by tauto)]
    unfold domSizeDiags
    rw [countCode_append, countCode_append]
    constructor <;>
    · repeat' split
      all_goals simp_all [countCode, buildDiagnostic]
      all_goals omega

/-- Witness for C5's amended claim: 1600 `<div>` tags yield a count of
1600 and both DOM-size findings. -/
theorem C5_dom_size_amended_witness :
    totalElements (nestedDoc 1600 (L "div")) = 1600 ∧
    countCode "WRS_DOM_SIZE_WARNING"
      (scan (nestedDoc 1600 (L "div")) (L "a.html") defaultPolicy) = 1 ∧
    countCode "WRS_DOM_SIZE_EXCEEDED"
      (scan (nestedDoc 1600 (L "div")) (L "a.html") defaultPolicy) = 1 := by
  obtain ⟨h1, -, -, h3⟩ := C5_dom_size_amended (nestedDoc 1600 (L "div"))
    (L "a.html") defaultPolicy 1600 'd' (L "iv") (by decide) (by decide)
  have h1d : totalElements (nestedDoc 1600 (L "div")) = 1600 := h1
  have h4 := h3 (by rw [h1d]; omega)
  exact ⟨h1d, h4.1, h4.2⟩

/-! ## Dependency cost attribution -/

theorem splitOnChar_not_mem {sep : Char} {s : Str}
    (h : ∀ x ∈ s, (x == sep) = false) : splitOnChar sep s = [s] := by
  induction s with
  | nil => rfl
  | cons c r ih =>
    have hc := h c (by simp)
    have ihr := ih (fun x hx => h x (by simp [hx]))
    simp [splitOnChar, hc, ihr]

theorem splitOnChar_append {sep : Char} {s1 rest : Str}
    (h : ∀ x ∈ s1, (x == sep) = false) :
    splitOnChar sep (s1 ++ sep :: rest) = s1 :: splitOnChar sep rest := by
  induction s1 with
  | nil => simp [splitOnChar]
  | cons c r ih =>
    have hc := h c (by simp)
    have ihr := ih (fun x hx => h x (by simp [hx]))
    simp [splitOnChar, hc, ihr]

/-- A code only the bundle-size detector can emit is counted there. -/
theorem count_scan_bundle (t f : Str) (p : Policy) (c : String)
    (hc : c = "WRS_JS_BUNDLE_SIZE_WARNING" ∨ c = "WRS_JS_BUNDLE_SIZE_EXCEEDED") :
    countCode c (scan t f p) = countCode c (bundleDiags t) := by
  rcases hc with rfl | rfl <;>
  · rw [countCode_scan,
      countCode_eq_zero_of_codes (titleDiags_codes t f p) (by decide),
      countCode_eq_zero_of_codes (metaDescDiags_codes t p) (by decide),
      countCode_eq_zero_of_codes (canonicalDiags_codes t p) (by decide),
      countCode_eq_zero_of_codes (jsonLdDiags_codes t f p) (by decide),
      countCode_eq_zero_of_codes (ogDiags_codes t) (by decide),
      countCode_eq_zero_of_codes (htmlSizeDiags_codes t) (by decide),
      countCode_eq_zero_of_codes (domSizeDiags_codes t) (by decide),
      countCode_eq_zero_of_codes (domDepthDiags_codes t) (by decide),
      countCode_eq_zero_of_codes (headOrderDiags_codes t) (by decide),
      countCode_eq_zero_of_codes (imgDiags_codes t) (by decide),
      countCode_eq_zero_of_codes (nextImageDiags_codes t) (by decide),
      countCode_eq_zero_of_codes (fontDiags_codes t) (by decide),
      countCode_eq_zero_of_codes (preloadDiags_codes t) (by decide),
      countCode_eq_zero_of_codes (heavyDepDiags_codes t) (by decide),
      countCode_eq_zero_of_codes (scriptDiags_codes t) (by decide),
      countCode_eq_zero_of_codes (scriptCountDiags_codes t p) (by decide),
      countCode_eq_zero_of_codes (preconnectDiags_codes t) (by decide)]
    omega

/-- C6: a scoped import path contributes exactly its first two segments
as the package identity, a plain path its first segment; and whenever
the accumulated heavy-package estimate exceeds 1000KB the scan emits the
bundle-size error as well as the warning. -/
theorem C6_dependency_attribution (t f : Str) (p : Policy) (s1t s2 rest : Str)
    (h1 : ∀ x ∈ s1t, (x == '/') = false)
    (h2 : ∀ x ∈ s2, (x == '/') = false) :
    extractPackageName (('@' :: s1t) ++ '/' :: (s2 ++ '/' :: rest)) =
      ('@' :: s1t) ++ '/' :: s2 ∧
    extractPackageName (L "@material-ui/core/Button") = L "@material-ui/core" ∧
    (∀ pf rest2, (∀ x ∈ pf, (x == '/') = false) → pf.head? ≠ some '@' →
      extractPackageName (pf ++ '/' :: rest2) = pf) ∧
    (1000 < totalEstimatedBundleSize t →
      countCode "WRS_JS_BUNDLE_SIZE_WARNING" (scan t f p) = 1 ∧
      countCode "WRS_JS_BUNDLE_SIZE_EXCEEDED" (scan t f p) = 1) := by
  refine ⟨?_, by decide, ?_, ?_⟩
  · have hall : ∀ x ∈ '@' :: s1t, (x == '/') = false := by
      intro x hx
      rcases List.mem_cons.mp hx with rfl | hx
      · decide
      · exact h1 x hx
    show extractPackageName ('@' :: (s1t ++ '/' :: (s2 ++ '/' :: rest))) = _
    unfold extractPackageName
    rw [show '@' :: (s1t ++ '/' :: (s2 ++ '/' :: rest)) =
      ('@' :: s1t) ++ '/' :: (s2 ++ '/' :: rest) from by simp]
    rw [splitOnChar_append hall, splitOnChar_append h2]
    rfl
  · intro pf rest2 hpf hhead
    cases pf with
    | nil => simp [extractPackageName, splitOnChar]
    | cons c pt =>
      have hc : c ≠ '@' := by
        intro h
        exact hhead (by simp [h])
      show extractPackageName (c :: (pt ++ '/' :: rest2)) = c :: pt
      unfold extractPackageName
      split
      · next heq => simp at heq; exact absurd heq.1 hc
      · rw [show c :: (pt ++ '/' :: rest2) = (c :: pt) ++ '/' :: rest2 from by simp]
        rw [splitOnChar_append hpf]
        rfl
  · intro h
    rw [count_scan_bundle t f p _ (by tauto), count_scan_bundle t f p _ (by tauto)]
    unfold bundleDiags
    rw [countCode_append, countCode_append]
    constructor <;>
    · repeat' split
      all_goals simp_all [countCode, buildDiagnostic]
      all_goals omega

set_option maxRecDepth 4000 in
/-- Witness for C6: the six-heavy-import document of the spec scenario
(total 1122KB) and the concrete scoped path. -/
theorem C6_dependency_attribution_witness :
    extractPackageName (L "@material-ui/core/Button") = L "@material-ui/core" ∧
    1000 < totalEstimatedBundleSize (L "import a from 'moment';import b from 'jquery';import c from 'lodash';import d from 'rxjs';import e from 'chart.js';import f from 'three';") ∧
    countCode "WRS_JS_BUNDLE_SIZE_EXCEEDED"
      (scan (L "import a from 'moment';import b from 'jquery';import c from 'lodash';import d from 'rxjs';import e from 'chart.js';import f from 'three';")
        (L "a.js") defaultPolicy) = 1 := by
  obtain ⟨-, hm, -, hb⟩ := C6_dependency_attribution
    (L "import a from 'moment';import b from 'jquery';import c from 'lodash';import d from 'rxjs';import e from 'chart.js';import f from 'three';")
    (L "a.js") defaultPolicy (L "material-ui") (L "core") (L "Button")
    (by decide) (by decide)
  have ht : 1000 < totalEstimatedBundleSize (L "import a from 'moment';import b from 'jquery';import c from 'lodash';import d from 'rxjs';import e from 'chart.js';import f from 'three';") := by
    decide
  exact ⟨hm, ht, (hb ht).2⟩

/-! ## Open Graph coverage and title-missing suppression -/

/-- The `SEO_OG_TAGS_MISSING` code is counted in the OG detector alone. -/
theorem count_scan_og (t f : Str) (p : Policy) :
    countCode "SEO_OG_TAGS_MISSING" (scan t f p) =
      countCode "SEO_OG_TAGS_MISSING" (ogDiags t) := by
  rw [countCode_scan,
    countCode_eq_zero_of_codes (titleDiags_codes t f p) (by decide),
    countCode_eq_zero_of_codes (metaDescDiags_codes t p) (by decide),
    countCode_eq_zero_of_codes (canonicalDiags_codes t p) (by decide),
    countCode_eq_zero_of_codes (jsonLdDiags_codes t f p) (by decide),
    countCode_eq_zero_of_codes (htmlSizeDiags_codes t) (by decide),
    countCode_eq_zero_of_codes (domSizeDiags_codes t) (by decide),
    countCode_eq_zero_of_codes (domDepthDiags_codes t) (by decide),
    countCode_eq_zero_of_codes (headOrderDiags_codes t) (by decide),
    countCode_eq_zero_of_codes (imgDiags_codes t) (by decide),
    countCode_eq_zero_of_codes (nextImageDiags_codes t) (by decide),
    countCode_eq_zero_of_codes (fontDiags_codes t) (by decide),
    countCode_eq_zero_of_codes (preloadDiags_codes t) (by decide),
    countCode_eq_zero_of_codes (heavyDepDiags_codes t) (by decide),
    countCode_eq_zero_of_codes (bundleDiags_codes t) (by decide),
    countCode_eq_zero_of_codes (scriptDiags_codes t) (by decide),
    countCode_eq_zero_of_codes (scriptCountDiags_codes t p) (by decide),
    countCode_eq_zero_of_codes (preconnectDiags_codes t) (by decide)]
  omega

/-- C7: with a head section present, the aggregate Open Graph finding is
emitted exactly when at least 3 of the 4 checked tags are absent; the
emitted diagnostic's message lists exactly the missing tags; and the
missing-tag list is precisely the absent members of the four-tag set. -/
theorem C7_og_threshold (t f : Str) (p : Policy) (hh : hasHeadTag t = true) :
    (countCode "SEO_OG_TAGS_MISSING" (scan t f p) =
      if 3 ≤ (missingOg t).length then 1 else 0) ∧
    (3 ≤ (missingOg t).length →
      buildDiagnostic docStartRange
        ("Missing " ++ toString (missingOg t).length ++ "/4 Open Graph tags: " ++
          String.intercalate ", " (missingOg t) ++ ". These improve social media sharing.")
        "SEO_OG_TAGS_MISSING" .information ∈ scan t f p) ∧
    (∀ n, n ∈ missingOg t ↔ n ∈ ogTagNames ∧ ogPresent t n = false) := by
  refine ⟨?_, ?_, ?_⟩
  · rw [count_scan_og t f p]
    unfold ogDiags
    rw [hh]
    split
    · next hcond =>
      rw [if_pos (by simpa using hcond)]
      simp [countCode, buildDiagnostic]
    · next hcond =>
      rw [if_neg (by simpa using hcond)]
      simp [countCode]
  · intro h3
    have hmem : buildDiagnostic docStartRange
        ("Missing " ++ toString (missingOg t).length ++ "/4 Open Graph tags: " ++
          String.intercalate ", " (missingOg t) ++ ". These improve social media sharing.")
        "SEO_OG_TAGS_MISSING" .information ∈ ogDiags t := by
      unfold ogDiags
      rw [hh, if_pos (by simpa using h3)]
      simp
    simp only [scan, List.mem_append]
    tauto
  · intro n
    simp [missingOg, List.mem_filter]

/-- Witness for C7: a head section with only `og:title` and `og:image`
present (2 of 4 missing) emits nothing; the count evaluates through the
theorem's characterization. -/
theorem C7_og_threshold_witness :
    hasHeadTag (L "<head><meta property=\"og:title\" content=\"t\"><meta property=\"og:image\" content=\"i\"></head>") = true ∧
    countCode "SEO_OG_TAGS_MISSING"
      (scan (L "<head><meta property=\"og:title\" content=\"t\"><meta property=\"og:image\" content=\"i\"></head>")
        (L "a.html") defaultPolicy) = 0 := by
  refine ⟨by decide, ?_⟩
  have h := (C7_og_threshold
    (L "<head><meta property=\"og:title\" content=\"t\"><meta property=\"og:image\" content=\"i\"></head>")
    (L "a.html") defaultPolicy (by decide)).1
  rw [h]
  rw [if_neg (by decide)]

/-- C8: the missing-title warning appears exactly when no title element
matches, a head marker exists, no framework marker is present, and the
file name has no component extension; in particular any document
containing the head-management import marker is suppressed. -/
theorem C8_title_missing_suppression (t f : Str) (p : Policy) :
    (countCode "SEO_TITLE_MISSING" (scan t f p) =
      if titleExec t = none ∧ hasHeadTag t = true ∧ isNextJs t = false ∧ isJsxFile f = false
      then 1 else 0) ∧
    (containsSub (L "next/head") t = true →
      countCode "SEO_TITLE_MISSING" (scan t f p) = 0) := by
  have hmain : countCode "SEO_TITLE_MISSING" (scan t f p) =
      if titleExec t = none ∧ hasHeadTag t = true ∧ isNextJs t = false ∧ isJsxFile f = false
      then 1 else 0 := by
    rw [count_scan_title t f p _ (by tauto)]
    simp only [titleDiags]
    rcases he : titleExec t with _ | v
    · simp only [eq_self_iff_true, true_and]
      by_cases h1 : hasHeadTag t <;> by_cases h2 : isNextJs t <;> by_cases h3 : isJsxFile f <;>
        simp_all [countCode, buildDiagnostic]
    · obtain ⟨idx, len, content⟩ := v
      rw [if_neg (show ¬(some (idx, len, content) = none ∧ hasHeadTag t = true ∧
        isNextJs t = false ∧ isJsxFile f = false) from fun hand =>
          Option.noConfusion hand.1)]
      split
      all_goals simp_all [countCode, buildDiagnostic]
  refine ⟨hmain, ?_⟩
  intro hnext
  rw [hmain, if_neg ?_]
  intro hand
  have : isNextJs t = true := by simp [isNextJs, hnext]
  rw [hand.2.2.1] at this
  exact Bool.false_ne_true this

/-- Witness for C8: a component-authored file importing the
head-management library, with no literal title tag. -/
theorem C8_title_missing_suppression_witness :
    containsSub (L "next/head") (L "import Head from 'next/head'") = true ∧
    countCode "SEO_TITLE_MISSING"
      (scan (L "import Head from 'next/head'") (L "p.js") defaultPolicy) = 0 := by
  refine ⟨by decide, ?_⟩
  exact (C8_title_missing_suppression (L "import Head from 'next/head'")
    (L "p.js") defaultPolicy).2 (by decide)

/-! ## Unused policy fields -/

/-- The font-display code is counted in the font detector alone. -/
theorem count_scan_font (t f : Str) (p : Policy) :
    countCode "PERF_FONT_DISPLAY_MISSING" (scan t f p) =
      countCode "PERF_FONT_DISPLAY_MISSING" (fontDiags t) := by
  rw [countCode_scan,
    countCode_eq_zero_of_codes (titleDiags_codes t f p) (by decide),
    countCode_eq_zero_of_codes (metaDescDiags_codes t p) (by decide),
    countCode_eq_zero_of_codes (canonicalDiags_codes t p) (by decide),
    countCode_eq_zero_of_codes (jsonLdDiags_codes t f p) (by decide),
    countCode_eq_zero_of_codes (ogDiags_codes t) (by decide),
    countCode_eq_zero_of_codes (htmlSizeDiags_codes t) (by decide),
    countCode_eq_zero_of_codes (domSizeDiags_codes t) (by decide),
    countCode_eq_zero_of_codes (domDepthDiags_codes t) (by decide),
    countCode_eq_zero_of_codes (headOrderDiags_codes t) (by decide),
    countCode_eq_zero_of_codes (imgDiags_codes t) (by decide),
    countCode_eq_zero_of_codes (nextImageDiags_codes t) (by decide),
    countCode_eq_zero_of_codes (preloadDiags_codes t) (by decide),
    countCode_eq_zero_of_codes (heavyDepDiags_codes t) (by decide),
    countCode_eq_zero_of_codes (bundleDiags_codes t) (by decide),
    countCode_eq_zero_of_codes (scriptDiags_codes t) (by decide),
    countCode_eq_zero_of_codes (scriptCountDiags_codes t p) (by decide),
    countCode_eq_zero_of_codes (preconnectDiags_codes t) (by decide)]
  omega

/-- The font-preload code is counted in the preload detector alone. -/
theorem count_scan_preload (t f : Str) (p : Policy) :
    countCode "PERF_FONT_PRELOAD_EXCESS" (scan t f p) =
      countCode "PERF_FONT_PRELOAD_EXCESS" (preloadDiags t) := by
  rw [countCode_scan,
    countCode_eq_zero_of_codes (titleDiags_codes t f p) (by decide),
    countCode_eq_zero_of_codes (metaDescDiags_codes t p) (by decide),
    countCode_eq_zero_of_codes (canonicalDiags_codes t p) (by decide),
    countCode_eq_zero_of_codes (jsonLdDiags_codes t f p) (by decide),
    countCode_eq_zero_of_codes (ogDiags_codes t) (by decide),
    countCode_eq_zero_of_codes (htmlSizeDiags_codes t) (by decide),
    countCode_eq_zero_of_codes (domSizeDiags_codes t) (by decide),
    countCode_eq_zero_of_codes (domDepthDiags_codes t) (by decide),
    countCode_eq_zero_of_codes (headOrderDiags_codes t) (by decide),
    countCode_eq_zero_of_codes (imgDiags_codes t) (by decide),
    countCode_eq_zero_of_codes (nextImageDiags_codes t) (by decide),
    countCode_eq_zero_of_codes (fontDiags_codes t) (by decide),
    countCode_eq_zero_of_codes (heavyDepDiags_codes t) (by decide),
    countCode_eq_zero_of_codes (bundleDiags_codes t) (by decide),
    countCode_eq_zero_of_codes (scriptDiags_codes t) (by decide),
    countCode_eq_zero_of_codes (scriptCountDiags_codes t p) (by decide),
    countCode_eq_zero_of_codes (preconnectDiags_codes t) (by decide)]
  omega

/-- C10: `lcpImageKB` and `requireFontDisplaySwap` never influence the
output — two scans of the same document under policies agreeing on every
other field produce identical diagnostic sequences, and the font-display
and font-preload findings are counted by functions of the text alone. -/
theorem C10_unused_policy_fields (t f : Str) (p1 p2 : Policy)
    (h1 : p1.titleMin = p2.titleMin) (h2 : p1.titleMax = p2.titleMax)
    (h3 : p1.metaDescriptionMin = p2.metaDescriptionMin)
    (h4 : p1.metaDescriptionMax = p2.metaDescriptionMax)
    (h5 : p1.requireCanonical = p2.requireCanonical)
    (h6 : p1.requireJsonLdFor = p2.requireJsonLdFor)
    (h7 : p1.maxThirdPartyScriptsPerPage = p2.maxThirdPartyScriptsPerPage) :
    scan t f p1 = scan t f p2 ∧
    countCode "PERF_FONT_DISPLAY_MISSING" (scan t f p1) =
      countCode "PERF_FONT_DISPLAY_MISSING" (fontDiags t) ∧
    countCode "PERF_FONT_PRELOAD_EXCESS" (scan t f p1) =
      countCode "PERF_FONT_PRELOAD_EXCESS" (preloadDiags t) := by
  refine ⟨?_, count_scan_font t f p1, count_scan_preload t f p1⟩
  cases p1
  cases p2
  simp only [] at h1 h2 h3 h4 h5 h6 h7
  subst h1 h2 h3 h4 h5 h6 h7
  rfl

/-- Witness for C10: the default policy against one that differs only in
the two inert fields, on a document with an unswapped font face. -/
theorem C10_unused_policy_fields_witness :
    scan (L "@font-face { src: url(x.woff2); }") (L "a.html") defaultPolicy =
      scan (L "@font-face { src: url(x.woff2); }") (L "a.html")
        { defaultPolicy with lcpImageKB := 125, requireFontDisplaySwap := true } := by
  exact (C10_unused_policy_fields (L "@font-face { src: url(x.woff2); }") (L "a.html")
    defaultPolicy { defaultPolicy with lcpImageKB := 125, requireFontDisplaySwap := true }
    rfl rfl rfl rfl rfl rfl rfl).1

/-! ## Range bounds -/

theorem linesOf_ne_nil (t : Str) : linesOf t ≠ [] := by
  cases t with
  | nil => simp [linesOf]
  | cons c r =>
    simp only [linesOf]
    split
    · simp
    · split <;> simp

theorem posOf_valid_prefix (pre : Str) : ∀ suf, validPos (pre ++ suf) (posOf pre) := by
  induction pre with
  | nil =>
    intro suf
    refine ⟨?_, ?_⟩
    · cases hL : linesOf ([] ++ suf) with
      | nil => exact absurd hL (by simpa using linesOf_ne_nil suf)
      | cons l ls => simp [posOf, hL]
    · simp [posOf]
  | cons c pre ih =>
    intro suf
    obtain ⟨ih1, ih2⟩ := ih suf
    by_cases hc : c = '\n'
    · subst hc
      refine ⟨?_, ?_⟩
      · show (posOf ('\n' :: pre)).line < (linesOf ('\n' :: pre ++ suf)).length
        simp only [posOf, linesOf, List.cons_append, eq_self_iff_true, if_true,
          List.length_cons, List.append_eq]
        omega
      · show (posOf ('\n' :: pre)).character ≤
          ((linesOf ('\n' :: pre ++ suf)).getD (posOf ('\n' :: pre)).line []).length
        simp only [posOf, linesOf, List.cons_append, eq_self_iff_true, if_true,
          List.getD_cons_succ, List.append_eq]
        exact ih2
    · have hne := linesOf_ne_nil (pre ++ suf)
      cases hLs : linesOf (pre ++ suf) with
      | nil => exact absurd hLs hne
      | cons l ls =>
        have hlines : linesOf (c :: (pre ++ suf)) = (c :: l) :: ls := by
          simp only [linesOf, if_neg hc, hLs]
        by_cases h0 : (posOf pre).line = 0
        · have hpos : posOf (c :: pre) = ⟨0, (posOf pre).character + 1⟩ := by
            simp [posOf, hc, h0]
          refine ⟨?_, ?_⟩
          · show (posOf (c :: pre)).line < (linesOf (c :: pre ++ suf)).length
            rw [List.cons_append, hlines, hpos]
            simp
          · show (posOf (c :: pre)).character ≤
              ((linesOf (c :: pre ++ suf)).getD (posOf (c :: pre)).line []).length
            rw [List.cons_append, hlines, hpos]
            rw [hLs, h0] at ih2
            simp only [List.getD_cons_zero] at ih2 ⊢
            simp only [List.length_cons]
            omega
        · have hpos : posOf (c :: pre) = posOf pre := by
            simp [posOf, hc, h0]
          obtain ⟨k, hk⟩ : ∃ k, (posOf pre).line = k + 1 :=
            ⟨(posOf pre).line - 1, by omega⟩
          refine ⟨?_, ?_⟩
          · show (posOf (c :: pre)).line < (linesOf (c :: pre ++ suf)).length
            rw [List.cons_append, hlines, hpos]
            rw [hLs] at ih1
            simpa using ih1
          · show (posOf (c :: pre)).character ≤
              ((linesOf (c :: pre ++ suf)).getD (posOf (c :: pre)).line []).length
            rw [List.cons_append, hlines, hpos]
            rw [hLs] at ih2
            rw [hk] at ih2 ⊢
            simpa using ih2

theorem positionAt_valid (t : Str) (off : Nat) : validPos t (positionAt t off) := by
  have h := posOf_valid_prefix (t.take off) (t.drop off)
  rwa [List.take_append_drop] at h

theorem validRange_rangeAt (t : Str) (a b : Nat) : validRange t (rangeAt t a b) :=
  ⟨positionAt_valid t a, positionAt_valid t b⟩

theorem validRange_mk_posAt (t : Str) (a b : Nat) :
    validRange t ⟨positionAt t a, positionAt t b⟩ :=
  ⟨positionAt_valid t a, positionAt_valid t b⟩

theorem docStartRange_valid (t : Str) (hfl : (linesOf t).headD [] ≠ []) :
    validRange t docStartRange := by
  cases hL : linesOf t with
  | nil => exact absurd hL (linesOf_ne_nil t)
  | cons l ls =>
    rw [hL] at hfl
    refine ⟨⟨?_, ?_⟩, ⟨?_, ?_⟩⟩
    · simp [docStartRange, hL]
    · simp [docStartRange, hL]
    · simp [docStartRange, hL]
    · simp only [docStartRange, hL, List.getD_cons_zero]
      simp only [List.headD_cons] at hfl
      cases l with
      | nil => simp at hfl
      | cons a r => simp

/-! ## Per-detector range shapes -/

theorem titleDiags_ranges (t f : Str) (p : Policy) :
    ∀ d ∈ titleDiags t f p, d.range = docStartRange ∨ validRange t d.range := by
  intro d hd
  unfold titleDiags at hd
  repeat' split at hd
  all_goals simp_all [buildDiagnostic]
  all_goals first
    | exact Or.inl rfl
    | exact Or.inr (validRange_rangeAt t _ _)
    | exact Or.inr (validRange_mk_posAt t _ _)

theorem metaDescDiags_ranges (t : Str) (p : Policy) :
    ∀ d ∈ metaDescDiags t p, d.range = docStartRange ∨ validRange t d.range := by
  intro d hd
  unfold metaDescDiags at hd
  repeat' split at hd
  all_goals simp_all [buildDiagnostic]
  all_goals first
    | exact Or.inl rfl
    | exact Or.inr (validRange_rangeAt t _ _)
    | exact Or.inr (validRange_mk_posAt t _ _)

theorem canonicalDiags_ranges (t : Str) (p : Policy) :
    ∀ d ∈ canonicalDiags t p, d.range = docStartRange ∨ validRange t d.range := by
  intro d hd
  unfold canonicalDiags at hd
  repeat' split at hd
  all_goals simp_all [buildDiagnostic]
  all_goals first
    | exact Or.inl rfl
    | exact Or.inr (validRange_rangeAt t _ _)
    | exact Or.inr (validRange_mk_posAt t _ _)

theorem jsonLdDiags_ranges (t f : Str) (p : Policy) :
    ∀ d ∈ jsonLdDiags t f p, d.range = docStartRange ∨ validRange t d.range := by
  intro d hd
  unfold jsonLdDiags at hd
  repeat' split at hd
  all_goals simp_all [buildDiagnostic]
  rcases hd with h | h <;> (repeat' split at h) <;> simp_all [buildDiagnostic]
  all_goals exact Or.inl rfl

theorem ogDiags_ranges (t : Str) :
    ∀ d ∈ ogDiags t, d.range = docStartRange ∨ validRange t d.range := by
  intro d hd
  unfold ogDiags at hd
  repeat' split at hd
  all_goals simp_all [buildDiagnostic]
  all_goals first
    | exact Or.inl rfl
    | exact Or.inr (validRange_rangeAt t _ _)
    | exact Or.inr (validRange_mk_posAt t _ _)

theorem htmlSizeDiags_ranges (t : Str) :
    ∀ d ∈ htmlSizeDiags t, d.range = docStartRange ∨ validRange t d.range := by
  intro d hd
  unfold htmlSizeDiags at hd
  simp only [List.mem_append] at hd
  rcases hd with h | h <;> (repeat' split at h) <;> simp_all [buildDiagnostic]
  all_goals exact Or.inl rfl

theorem domSizeDiags_ranges (t : Str) :
    ∀ d ∈ domSizeDiags t, d.range = docStartRange ∨ validRange t d.range := by
  intro d hd
  unfold domSizeDiags at hd
  simp only [List.mem_append] at hd
  rcases hd with h | h <;> (repeat' split at h) <;> simp_all [buildDiagnostic]
  all_goals exact Or.inl rfl

theorem domDepthDiags_ranges (t : Str) :
    ∀ d ∈ domDepthDiags t, d.range = docStartRange ∨ validRange t d.range := by
  intro d hd
  unfold domDepthDiags at hd
  simp only [List.mem_append] at hd
  rcases hd with h | h <;> (repeat' split at h) <;> simp_all [buildDiagnostic]
  all_goals exact Or.inl rfl

theorem headOrderDiags_ranges (t : Str) :
    ∀ d ∈ headOrderDiags t, d.range = docStartRange ∨ validRange t d.range := by
  intro d hd
  unfold headOrderDiags at hd
  split at hd
  · simp at hd
  · simp only [List.mem_append] at hd
    rcases hd with (h | h) | h <;> (repeat' split at h) <;> simp_all [buildDiagnostic]
    all_goals exact Or.inr (validRange_mk_posAt t _ _)

theorem imgDiags_ranges (t : Str) :
    ∀ d ∈ imgDiags t, d.range = docStartRange ∨ validRange t d.range := by
  intro d hd
  unfold imgDiags at hd
  simp only [List.mem_flatMap, List.mem_append] at hd
  obtain ⟨m, -, hm⟩ := hd
  rcases hm with (h | h) | h <;> (repeat' split at h) <;> simp_all [buildDiagnostic]
  all_goals exact Or.inr (validRange_rangeAt t _ _)

theorem nextImageDiags_ranges (t : Str) :
    ∀ d ∈ nextImageDiags t, d.range = docStartRange ∨ validRange t d.range := by
  intro d hd
  unfold nextImageDiags at hd
  simp only [List.mem_flatMap, List.mem_append] at hd
  obtain ⟨m, -, hm⟩ := hd
  rcases hm with h | h <;> (repeat' split at h) <;> simp_all [buildDiagnostic]
  all_goals exact Or.inr (validRange_rangeAt t _ _)

theorem fontDiags_ranges (t : Str) :
    ∀ d ∈ fontDiags t, d.range = docStartRange ∨ validRange t d.range := by
  intro d hd
  unfold fontDiags at hd
  simp only [List.mem_flatMap, List.mem_append] at hd
  obtain ⟨m, -, hm⟩ := hd
  repeat' split at hm
  all_goals simp_all [buildDiagnostic]
  all_goals first
    | exact Or.inl rfl
    | exact Or.inr (validRange_rangeAt t _ _)

theorem preloadDiags_ranges (t : Str) :
    ∀ d ∈ preloadDiags t, d.range = docStartRange ∨ validRange t d.range := by
  intro d hd
  unfold preloadDiags at hd
  repeat' split at hd
  all_goals simp_all [buildDiagnostic]
  all_goals first
    | exact Or.inl rfl
    | exact Or.inr (validRange_rangeAt t _ _)
    | exact Or.inr (validRange_mk_posAt t _ _)

theorem heavyDepDiags_ranges (t : Str) :
    ∀ d ∈ heavyDepDiags t, d.range = docStartRange ∨ validRange t d.range := by
  intro d hd
  unfold heavyDepDiags at hd
  simp only [List.mem_flatMap, List.mem_append] at hd
  obtain ⟨m, -, hm⟩ := hd
  repeat' split at hm
  all_goals simp_all [buildDiagnostic]
  all_goals first
    | exact Or.inl rfl
    | exact Or.inr (validRange_rangeAt t _ _)

theorem bundleDiags_ranges (t : Str) :
    ∀ d ∈ bundleDiags t, d.range = docStartRange ∨ validRange t d.range := by
  intro d hd
  unfold bundleDiags at hd
  simp only [List.mem_append] at hd
  rcases hd with h | h <;> (repeat' split at h) <;> simp_all [buildDiagnostic]
  all_goals exact Or.inl rfl

theorem scriptDiags_ranges (t : Str) :
    ∀ d ∈ scriptDiags t, d.range = docStartRange ∨ validRange t d.range := by
  intro d hd
  unfold scriptDiags at hd
  simp only [List.mem_flatMap, List.mem_append] at hd
  obtain ⟨m, -, hm⟩ := hd
  repeat' split at hm
  all_goals simp_all [buildDiagnostic]
  all_goals first
    | exact Or.inl rfl
    | exact Or.inr (validRange_rangeAt t _ _)

theorem scriptCountDiags_ranges (t : Str) (p : Policy) :
    ∀ d ∈ scriptCountDiags t p, d.range = docStartRange ∨ validRange t d.range := by
  intro d hd
  unfold scriptCountDiags at hd
  repeat' split at hd
  all_goals simp_all [buildDiagnostic]
  all_goals first
    | exact Or.inl rfl
    | exact Or.inr (validRange_rangeAt t _ _)
    | exact Or.inr (validRange_mk_posAt t _ _)

theorem preconnectDiags_ranges (t : Str) :
    ∀ d ∈ preconnectDiags t, d.range = docStartRange ∨ validRange t d.range := by
  intro d hd
  simp only [preconnectDiags] at hd
  split at hd
  · simp only [List.mem_singleton] at hd
    subst hd
    exact Or.inl rfl
  · simp at hd

/-- C9 counterexample: for the empty document the scan still emits
document-anchored findings whose fixed range ends at character 1 of an
empty first line — outside the document's bounds. -/
theorem C9_range_bounds_counterexample :
    buildDiagnostic docStartRange
      "Missing meta description. Add a 50–160 character description to improve click‑through rate."
      "SEO_META_DESC_MISSING" .warning ∈ scan [] (L "a.html") defaultPolicy ∧
    ¬ validRange ([] : Str) docStartRange := by
  constructor
  · decide
  · decide

/-- C9 (amended): for every document whose first line is nonempty, every
diagnostic the scan emits has a range inside the document's bounds;
match-anchored ranges are always in bounds, document-anchored findings
use the fixed start-of-document range, which exists exactly when the
first line has at least one character. -/
theorem C9_range_bounds_amended (t f : Str) (p : Policy)
    (hfl : (linesOf t).headD [] ≠ []) :
    ∀ d ∈ scan t f p, validRange t d.range := by
  intro d hd
  have hds := docStartRange_valid t hfl
  have finish : ∀ {d : Diagnostic},
      (d.range = docStartRange ∨ validRange t d.range) → validRange t d.range :=
    fun hor => hor.elim (fun he => he ▸ hds) id
  simp only [scan, List.mem_append] at hd
  rcases hd with ((((((((((((((((h | h) | h) | h) | h) | h) | h) | h) | h) | h) | h) | h) | h) | h) | h) | h) | h) | h
  · exact finish (titleDiags_ranges t f p d h)
  · exact finish (metaDescDiags_ranges t p d h)
  · exact finish (canonicalDiags_ranges t p d h)
  · exact finish (jsonLdDiags_ranges t f p d h)
  · exact finish (ogDiags_ranges t d h)
  · exact finish (htmlSizeDiags_ranges t d h)
  · exact finish (domSizeDiags_ranges t d h)
  · exact finish (domDepthDiags_ranges t d h)
  · exact finish (headOrderDiags_ranges t d h)
  · exact finish (imgDiags_ranges t d h)
  · exact finish (nextImageDiags_ranges t d h)
  · exact finish (fontDiags_ranges t d h)
  · exact finish (preloadDiags_ranges t d h)
  · exact finish (heavyDepDiags_ranges t d h)
  · exact finish (bundleDiags_ranges t d h)
  · exact finish (scriptDiags_ranges t d h)
  · exact finish (scriptCountDiags_ranges t p d h)
  · exact finish (preconnectDiags_ranges t d h)

/-- Witness for C9's amended claim on a one-character document. -/
theorem C9_range_bounds_amended_witness :
    (linesOf (L "x")).headD [] ≠ [] ∧
    ∀ d ∈ scan (L "x") (L "a.html") defaultPolicy, validRange (L "x") d.range :=
  ⟨by decide, C9_range_bounds_amended (L "x") (L "a.html") defaultPolicy (by decide)⟩

end Kanmi
